import Mathlib

/-!
Shallow embedding of the Modbus RTU bus engine (`src/ModbusRTUFeature.h/.cpp`)
and the typed device manager (`src/ModbusDevice.h/.cpp`) of the Joba_Esp32
repository, together with theorems settling the frozen claims C1..C10.

Modelling conventions:
* machine integers (`uint8_t`, `uint16_t`, `uint32_t`) are `Nat` with explicit
  `% 2^w` at the points where the C++ code converts or wraps;
* `unsigned long` (`millis()` / `micros()` values on ESP32 are 32-bit)
  subtraction is `sub32` below;
* `std::map` is an association list with lookup / insert / erase helpers;
* `std::function` callbacks are opaque identifiers (`Option Nat`); an
  invocation is recorded in an explicit log so that theorems can speak about
  "the completion was invoked";
* `float` register values are modelled as rationals; the IEEE-754 bit
  reinterpretation used by the FLOAT32 data types is kept abstract as a
  function argument `f32 : Nat → ℚ`;
* logging, the debug frame-history ring, the CRC-error-context ring, the
  interval statistics and the active-time bookkeeping of the source are not
  modelled: no claim mentions them and they influence no modelled field.
-/

namespace Joba

/-- 32-bit wrap-around subtraction `(uint32_t)(a - b)` for `a b : Nat`. -/
def sub32 (a b : Nat) : Nat :=
  (a % 4294967296 + 4294967296 - b % 4294967296) % 4294967296

/-- `(int32_t)(a - b) < 0`, the `timeBefore32` helper of `ModbusRTUFeature.cpp`. -/
def timeBefore32 (a b : Nat) : Bool :=
  2147483648 ≤ sub32 a b

/-- Association list lookup with default (models `std::map::find` with a
default when the key is absent, and `operator[]` reads). -/
def alGetD {β : Type} (m : List (Nat × β)) (k : Nat) (d : β) : β :=
  ((m.lookup k).getD d)

/-- Association list containment (models `find != end`). -/
def alContains {β : Type} (m : List (Nat × β)) (k : Nat) : Bool :=
  (m.lookup k).isSome

/-- Association list insert-or-overwrite (models `std::map::operator[] =`). -/
def alSet {β : Type} : List (Nat × β) → Nat → β → List (Nat × β)
  | [], k, v => [(k, v)]
  | (k₀, v₀) :: t, k, v =>
    if k₀ = k then (k, v) :: t else (k₀, v₀) :: alSet t k v

/-- Association list erase (models `std::map::erase(key)`). -/
def alErase {β : Type} : List (Nat × β) → Nat → List (Nat × β)
  | [], _ => []
  | (k₀, v₀) :: t, k => if k₀ = k then alErase t k else (k₀, v₀) :: alErase t k

/-! ## CRC-16/Modbus (`ModbusRTUFeature::calculateCRC`) -/

/-- One shift round of the CRC loop: `if (crc & 1) crc = (crc >> 1) ^ 0xA001
else crc >>= 1`. -/
def crcShift (crc : Nat) : Nat :=
  if crc &&& 1 = 1 then (crc >>> 1) ^^^ 0xA001 else crc >>> 1

/-- Eight CRC shift rounds. -/
def crcShifts : Nat → Nat → Nat
  | 0, c => c
  | n + 1, c => crcShifts n (crcShift c)

/-- Fold one data byte into the CRC: `crc ^= data[i]` followed by eight shift
rounds. -/
def crcByte (crc b : Nat) : Nat :=
  crcShifts 8 (crc ^^^ b)

/-- `ModbusRTUFeature::calculateCRC`: CRC-16/Modbus with initial value
`0xFFFF` and reflected polynomial `0xA001` over a byte list. -/
def calculateCRC (data : List Nat) : Nat :=
  data.foldl crcByte 0xFFFF

theorem crcShift_lt (c : Nat) (h : c < 65536) : crcShift c < 65536 := by
  have hle : c >>> 1 ≤ c := by
    rw [Nat.shiftRight_eq_div_pow]
    exact Nat.div_le_self c (2 ^ 1)
  unfold crcShift
  split
  · exact Nat.xor_lt_two_pow (n := 16) (Nat.lt_of_le_of_lt hle h) (by decide)
  · exact Nat.lt_of_le_of_lt hle h

theorem crcShifts_lt (n : Nat) (c : Nat) (h : c < 65536) : crcShifts n c < 65536 := by
  induction n generalizing c with
  | zero => exact h
  | succ n ih => exact ih _ (crcShift_lt c h)

theorem crcByte_lt (c b : Nat) (hc : c < 65536) (hb : b < 65536) :
    crcByte c b < 65536 :=
  crcShifts_lt 8 _ (Nat.xor_lt_two_pow (n := 16) hc hb)

theorem calculateCRC_lt (data : List Nat) (h : ∀ b ∈ data, b < 65536) :
    calculateCRC data < 65536 := by
  unfold calculateCRC
  have : ∀ (l : List Nat) (c : Nat), c < 65536 → (∀ b ∈ l, b < 65536) →
      l.foldl crcByte c < 65536 := by
    intro l
    induction l with
    | nil => intro c hc _; exact hc
    | cons b t ih =>
      intro c hc hl
      exact ih _ (crcByte_lt c b hc (hl b (List.mem_cons_self b t)))
        (fun x hx => hl x (List.mem_cons_of_mem b hx))
  exact this data 0xFFFF (by decide) h

/-! ## Byte recombination helpers -/

theorem lo_or_hiShift (c : Nat) : (c &&& 255) ||| ((c >>> 8) <<< 8) = c := by
  have h255 : (255 : Nat) = 2 ^ 8 - 1 := by decide
  rw [h255, Nat.and_pow_two_sub_one_eq_mod, Nat.shiftLeft_eq, Nat.shiftRight_eq_div_pow,
    Nat.or_comm, ← Nat.mul_comm (2 ^ 8) (c / 2 ^ 8),
    ← Nat.mul_add_lt_is_or (Nat.mod_lt c (by norm_num)) (c / 2 ^ 8)]
  exact Nat.div_add_mod c (2 ^ 8)

theorem hiShift_or_lo (c : Nat) : ((c >>> 8) <<< 8) ||| (c &&& 255) = c := by
  rw [Nat.or_comm]
  exact lo_or_hiShift c

theorem and255_lt (c : Nat) : c &&& 255 < 256 := by
  have h255 : (255 : Nat) = 2 ^ 8 - 1 := by decide
  rw [h255, Nat.and_pow_two_sub_one_eq_mod]
  exact Nat.mod_lt c (by norm_num)

theorem shiftRight8_lt (c : Nat) (h : c < 65536) : c >>> 8 < 256 := by
  rw [Nat.shiftRight_eq_div_pow]
  omega

theorem hi_or_lo_eq (s : Nat) :
    (((s >>> 8) % 256) <<< 8) ||| (s &&& 255) = s % 65536 := by
  have h255 : (255 : Nat) = 2 ^ 8 - 1 := by decide
  rw [h255, Nat.and_pow_two_sub_one_eq_mod, Nat.shiftLeft_eq, Nat.shiftRight_eq_div_pow,
    ← Nat.mul_comm (2 ^ 8) (s / 2 ^ 8 % 256),
    ← Nat.mul_add_lt_is_or (Nat.mod_lt s (by norm_num)) (s / 2 ^ 8 % 256)]
  have h1 : s % 65536 = s % (256 * 256) := by norm_num
  rw [h1, Nat.mod_mul]
  have h2 : (2 : Nat) ^ 8 = 256 := by decide
  rw [h2]
  omega

/-! ## `ModbusFrame` (`ModbusRTUFeature.h`) -/

/-- A single Modbus RTU frame.  The C++ struct stores the payload in a fixed
252-byte array together with `dataLen`; the model stores exactly the
`dataLen` payload bytes as a list (`data.length` plays the role of
`dataLen`). -/
structure ModbusFrame where
  unitId : Nat := 0
  functionCode : Nat := 0
  data : List Nat := []
  crc : Nat := 0
  timestamp : Nat := 0
  unixTimestamp : Nat := 0
  isRequest : Bool := false
  isValid : Bool := false
  isException : Bool := false
  exceptionCode : Nat := 0
deriving DecidableEq

namespace ModbusFrame

/-- `ModbusFrame::getStartRegister`: `(data[0] << 8) | data[1]` truncated to
`uint16_t`, `0` when `dataLen < 2`. -/
def getStartRegister (f : ModbusFrame) : Nat :=
  if 2 ≤ f.data.length then ((f.data.getD 0 0 <<< 8) ||| f.data.getD 1 0) % 65536
  else 0

/-- `ModbusFrame::getQuantity`: `(data[2] << 8) | data[3]` truncated to
`uint16_t`, `0` when `dataLen < 4`. -/
def getQuantity (f : ModbusFrame) : Nat :=
  if 4 ≤ f.data.length then ((f.data.getD 2 0 <<< 8) ||| f.data.getD 3 0) % 65536
  else 0

/-- `ModbusFrame::getByteCount`: `data[0]`, `0` when `dataLen < 1`. -/
def getByteCount (f : ModbusFrame) : Nat :=
  if 1 ≤ f.data.length then f.data.getD 0 0 else 0

/-- `ModbusFrame::getRegisterData`: the payload after the byte-count byte,
`none` (null) when `dataLen <= 1`. -/
def getRegisterData (f : ModbusFrame) : Option (List Nat) :=
  if 1 < f.data.length then some (f.data.drop 1) else none

end ModbusFrame

/-! ## Frame codec (`ModbusRTUFeature::parseFrame`, `sendRequest`, `sendFrame`) -/

/-- `ModbusRTUFeature::parseFrame`.  Returns `none` for `length < 4`
(the C++ function returns `false`); otherwise returns the parsed frame,
which carries `isValid = false` when the CRC check fails (the C++ function
returns `true` in that case too, so the caller can record the bad frame). -/
def parseFrame (nowMs unixNow : Nat) (bytes : List Nat) : Option ModbusFrame :=
  if bytes.length < 4 then none else
  let unitId := bytes.getD 0 0
  let fc := bytes.getD 1 0
  let receivedCrc := bytes.getD (bytes.length - 2) 0 |||
    (bytes.getD (bytes.length - 1) 0 <<< 8)
  let calculatedCrc := calculateCRC (bytes.take (bytes.length - 2))
  if receivedCrc ≠ calculatedCrc then
    some { unitId := unitId, functionCode := fc, timestamp := nowMs,
           unixTimestamp := unixNow, isRequest := false, isValid := false,
           crc := receivedCrc, data := (bytes.drop 2).take (bytes.length - 4),
           isException := false, exceptionCode := 0 }
  else if fc &&& 0x80 ≠ 0 then
    some { unitId := unitId, functionCode := fc, timestamp := nowMs,
           unixTimestamp := unixNow, isRequest := false, isValid := true,
           crc := receivedCrc, data := [], isException := true,
           exceptionCode := if 2 < bytes.length then bytes.getD 2 0 else 0 }
  else
    some { unitId := unitId, functionCode := fc, timestamp := nowMs,
           unixTimestamp := unixNow, isRequest := false, isValid := true,
           crc := receivedCrc, data := (bytes.drop 2).take (bytes.length - 4),
           isException := false, exceptionCode := 0 }

/-- A queued Modbus command (`ModbusPendingRequest`).  The `std::function`
completion is modelled by an opaque identifier; `none` models a null
callback. -/
structure ModbusPendingRequest where
  unitId : Nat := 0
  functionCode : Nat := 0
  startRegister : Nat := 0
  quantity : Nat := 0
  writeData : List Nat := []
  callback : Option Nat := none
  queuedAt : Nat := 0
  retries : Nat := 0
deriving DecidableEq

/- Modbus function codes (the C++ `namespace ModbusFC`). -/
namespace ModbusFC

def READ_COILS : Nat := 0x01
def READ_DISCRETE_INPUTS : Nat := 0x02
def READ_HOLDING_REGISTERS : Nat := 0x03
def READ_INPUT_REGISTERS : Nat := 0x04
def WRITE_SINGLE_COIL : Nat := 0x05
def WRITE_SINGLE_REGISTER : Nat := 0x06
def WRITE_MULTIPLE_COILS : Nat := 0x0F
def WRITE_MULTIPLE_REGISTERS : Nat := 0x10

end ModbusFC

/-- Body of an encoded request (`ModbusRTUFeature::sendRequest` before the
CRC is appended): unit, function code, then fields per function code.
`none` models the `default: return false` branch (unsupported function
code).  Every pushed byte carries the `uint8_t` conversion (`% 256`). -/
def encodeRequestBody (r : ModbusPendingRequest) : Option (List Nat) :=
  if r.functionCode = ModbusFC.READ_COILS ∨
     r.functionCode = ModbusFC.READ_DISCRETE_INPUTS ∨
     r.functionCode = ModbusFC.READ_HOLDING_REGISTERS ∨
     r.functionCode = ModbusFC.READ_INPUT_REGISTERS then
    some [r.unitId % 256, r.functionCode % 256,
          (r.startRegister >>> 8) % 256, r.startRegister &&& 0xFF,
          (r.quantity >>> 8) % 256, r.quantity &&& 0xFF]
  else if r.functionCode = ModbusFC.WRITE_SINGLE_REGISTER then
    some ([r.unitId % 256, r.functionCode % 256,
           (r.startRegister >>> 8) % 256, r.startRegister &&& 0xFF] ++
          (if r.writeData ≠ [] then
            [(r.writeData.getD 0 0 >>> 8) % 256, r.writeData.getD 0 0 &&& 0xFF]
           else []))
  else if r.functionCode = ModbusFC.WRITE_MULTIPLE_REGISTERS then
    some ([r.unitId % 256, r.functionCode % 256,
           (r.startRegister >>> 8) % 256, r.startRegister &&& 0xFF,
           (r.quantity >>> 8) % 256, r.quantity &&& 0xFF,
           (r.quantity * 2) % 256] ++
          (r.writeData.flatMap fun v => [(v >>> 8) % 256, v &&& 0xFF]))
  else none

/-- Wire bytes produced by `ModbusRTUFeature::sendFrame`: the body followed
by the CRC, low byte first. -/
def appendCRC (body : List Nat) : List Nat :=
  let crc := calculateCRC body
  body ++ [crc &&& 0xFF, (crc >>> 8) % 256]

/-! ## Bus engine state (`ModbusRTUFeature`) -/

/-- Per-unit timeout back-off state (`TimeoutBackoffState`), with the
default member initialisers of the C++ struct. -/
structure TimeoutBackoffState where
  consecutiveTimeouts : Nat := 0
  backoffMs : Nat := 2000
  pausedUntilMs : Nat := 0
deriving DecidableEq

/-- Raw register cache for one `(unitId, functionCode)` key
(`ModbusRegisterMap`). -/
structure ModbusRegisterMap where
  unitId : Nat := 0
  functionCode : Nat := 0
  registers : List (Nat × Nat) := []
  lastUpdate : Nat := 0
  requestCount : Nat := 0
  responseCount : Nat := 0
  errorCount : Nat := 0
deriving DecidableEq

/-- Cumulative statistics (`ModbusRTUFeature::Stats`; the interval statistics
and timing fields are not modelled). -/
structure ModbusStats where
  ownRequestsSent : Nat := 0
  ownRequestsSuccess : Nat := 0
  ownRequestsFailed : Nat := 0
  ownRequestsDiscarded : Nat := 0
  otherRequestsSeen : Nat := 0
  otherResponsesSeen : Nat := 0
  otherExceptionsSeen : Nat := 0
  otherResponsesPaired : Nat := 0
  otherResponsesUnpaired : Nat := 0
  otherExceptionsPaired : Nat := 0
  otherExceptionsUnpaired : Nat := 0
  framesReceived : Nat := 0
  framesSent : Nat := 0
  crcErrors : Nat := 0
  timeouts : Nat := 0
  queueOverflows : Nat := 0
deriving DecidableEq

/-- The mutable state of `ModbusRTUFeature` that the modelled operations
read or write.  Completion invocations and frame-observer invocations are
recorded in explicit logs.  Serial/timing bookkeeping, debug counters, the
frame-history ring and the CRC-context ring are not modelled. -/
structure EngineState where
  maxQueueSize : Nat := 16
  responseTimeoutMs : Nat := 1000
  waitingForResponse : Bool := false
  hasPendingRequest : Bool := false
  currentRequest : ModbusPendingRequest := {}
  lastRequest : ModbusFrame := {}
  lastRequestPerUnit : List (Nat × ModbusFrame) := []
  backoffByUnit : List (Nat × TimeoutBackoffState) := []
  requestQueue : List ModbusPendingRequest := []
  registerMaps : List (Nat × ModbusRegisterMap) := []
  stats : ModbusStats := {}
  requestSentTime : Nat := 0
  lastSuccessTime : Nat := 0
  completionLog : List (Nat × Bool × ModbusFrame) := []
  frameLog : List (ModbusFrame × Bool) := []
deriving DecidableEq

/-- `ModbusRTUFeature::isUnitQueueingPaused`. -/
def isUnitQueueingPaused (nowMs : Nat) (st : EngineState) (unitId : Nat) : Bool :=
  match st.backoffByUnit.lookup unitId with
  | none => false
  | some b =>
    if b.consecutiveTimeouts ≤ 2 then false
    else timeBefore32 nowMs b.pausedUntilMs

/-- `ModbusRTUFeature::getUnitConsecutiveTimeouts` (0 when no entry). -/
def getUnitConsecutiveTimeouts (st : EngineState) (unitId : Nat) : Nat :=
  match st.backoffByUnit.lookup unitId with
  | none => 0
  | some b => b.consecutiveTimeouts

/-- `ModbusRTUFeature::getUnitQueueingBackoffMs` (2000 when no entry). -/
def getUnitQueueingBackoffMs (st : EngineState) (unitId : Nat) : Nat :=
  match st.backoffByUnit.lookup unitId with
  | none => 2000
  | some b => b.backoffMs

/-- `ModbusRTUFeature::makeMapKey`. -/
def makeMapKey (unitId functionCode : Nat) : Nat :=
  (unitId <<< 8) ||| functionCode

/-- `ensureRegisterMap` followed by a mutation of the returned reference. -/
def mapUpdate (maps : List (Nat × ModbusRegisterMap)) (unitId fc : Nat)
    (f : ModbusRegisterMap → ModbusRegisterMap) : List (Nat × ModbusRegisterMap) :=
  let key := makeMapKey unitId fc
  alSet maps key (f (alGetD maps key { unitId := unitId, functionCode := fc }))

/-- `ModbusRTUFeature::updateRegisterMap`.  Register keys and values carry
the `uint16_t` truncation of the C++ map. -/
def updateRegisterMap (nowMs : Nat) (maps : List (Nat × ModbusRegisterMap))
    (request response : ModbusFrame) : List (Nat × ModbusRegisterMap) :=
  if !response.isValid || response.isException then maps else
  let fc := response.functionCode
  if fc ≠ ModbusFC.READ_HOLDING_REGISTERS ∧ fc ≠ ModbusFC.READ_INPUT_REGISTERS ∧
     fc ≠ ModbusFC.READ_COILS ∧ fc ≠ ModbusFC.READ_DISCRETE_INPUTS then maps else
  let maps := mapUpdate maps response.unitId fc fun m =>
    { m with responseCount := m.responseCount + 1, lastUpdate := nowMs }
  let startReg := request.getStartRegister
  let byteCount := response.getByteCount
  match response.getRegisterData with
  | none => maps
  | some regData =>
    if byteCount = 0 then maps else
    if fc = ModbusFC.READ_HOLDING_REGISTERS ∨ fc = ModbusFC.READ_INPUT_REGISTERS then
      mapUpdate maps response.unitId fc fun m =>
        let regs := (List.range (byteCount / 2)).foldl
          (fun regs i => alSet regs ((startReg + i) % 65536)
            (((regData.getD (i * 2) 0 <<< 8) ||| regData.getD (i * 2 + 1) 0) % 65536))
          m.registers
        { m with registers := regs }
    else
      mapUpdate maps response.unitId fc fun m =>
        let regs := (List.range (byteCount * 8)).foldl
          (fun regs i => alSet regs ((startReg + i) % 65536)
            ((regData.getD (i / 8) 0 >>> (i % 8)) &&& 1))
          m.registers
        { m with registers := regs }

/-- `ModbusRTUFeature::queueReadRegisterRequests` is named
`queueReadRegisters` in the source; `MODBUS_LISTEN_ONLY` is 0 (default).
`freeHeap` models `esp_get_free_heap_size()`.  Returns the new state and the
`bool` result. -/
def queueReadRegisters (freeHeap nowMs : Nat) (st : EngineState)
    (unitId functionCode startRegister quantity : Nat) (callback : Option Nat) :
    EngineState × Bool :=
  if st.maxQueueSize ≤ st.requestQueue.length then
    ({ st with stats := { st.stats with
        queueOverflows := st.stats.queueOverflows + 1,
        ownRequestsDiscarded := st.stats.ownRequestsDiscarded + 1 } }, false)
  else if freeHeap < 25000 then
    ({ st with stats := { st.stats with
        queueOverflows := st.stats.queueOverflows + 1,
        ownRequestsDiscarded := st.stats.ownRequestsDiscarded + 1 } }, false)
  else
    ({ st with requestQueue := st.requestQueue ++
        [{ unitId := unitId, functionCode := functionCode,
           startRegister := startRegister, quantity := quantity,
           writeData := [], callback := callback, queuedAt := nowMs,
           retries := 0 }] }, true)

/-- `ModbusRTUFeature::processQueue`.  Returns the new state, the request it
picked (if any), and the wire bytes it transmitted (if the pick was sent).
A picked request with an unsupported function code is the `sendRequest ==
false` branch: nothing is sent and the request stays queued. -/
def processQueue (nowMs unixNow : Nat) (st : EngineState) :
    EngineState × Option ModbusPendingRequest × Option (List Nat) :=
  if st.requestQueue.isEmpty then (st, none, none) else
  match st.requestQueue.findIdx? (fun r => !isUnitQueueingPaused nowMs st r.unitId) with
  | none => (st, none, none)
  | some sendIndex =>
    let req := st.requestQueue.getD sendIndex {}
    match encodeRequestBody req with
    | none => (st, some req, none)
    | some body =>
      let txBytes := appendCRC body
      let st := { st with stats := { st.stats with
        framesSent := st.stats.framesSent + 1,
        ownRequestsSent := st.stats.ownRequestsSent + 1 } }
      let fcBase := req.functionCode &&& 0x7F
      let st :=
        if fcBase = ModbusFC.READ_HOLDING_REGISTERS ∨ fcBase = ModbusFC.READ_INPUT_REGISTERS then
          { st with registerMaps := mapUpdate st.registerMaps req.unitId fcBase fun m =>
              { m with requestCount := m.requestCount + 1, lastUpdate := nowMs } }
        else st
      let lastReq : ModbusFrame :=
        { st.lastRequest with
          unitId := req.unitId, functionCode := req.functionCode,
          data := [(req.startRegister >>> 8) % 256, req.startRegister &&& 0xFF,
                   (req.quantity >>> 8) % 256, req.quantity &&& 0xFF],
          timestamp := nowMs, unixTimestamp := unixNow,
          isRequest := true, isValid := true, isException := false, exceptionCode := 0 }
      let st := { st with
        currentRequest := req, hasPendingRequest := true,
        waitingForResponse := true, requestSentTime := nowMs,
        lastRequest := lastReq,
        lastRequestPerUnit := alSet st.lastRequestPerUnit req.unitId lastReq,
        requestQueue := st.requestQueue.eraseIdx sendIndex }
      (st, some req, some txBytes)

/-- The per-unit back-off update performed by the timeout branch of
`ModbusRTUFeature::loop`. -/
def backoffOnTimeout (nowMs : Nat) (b : TimeoutBackoffState) : TimeoutBackoffState :=
  let b := { b with consecutiveTimeouts := b.consecutiveTimeouts + 1 }
  if 3 ≤ b.consecutiveTimeouts then
    let b := { b with pausedUntilMs := (nowMs + b.backoffMs) % 4294967296 }
    if b.backoffMs < 60000 then { b with backoffMs := min (b.backoffMs * 2) 60000 }
    else b
  else b

/-- The response-timeout branch of `ModbusRTUFeature::loop` (executed when
`_waitingForResponse` and the timeout has elapsed): bump failure counters,
apply per-unit back-off, release the in-flight slot without invoking its
completion, and — when the queue holds more than half its capacity — drop
queued requests targeting the timed-out unit only. -/
def timeoutStep (nowMs : Nat) (st : EngineState) : EngineState :=
  let unitId := st.currentRequest.unitId
  let stats := { st.stats with
                 timeouts := st.stats.timeouts + 1,
                 ownRequestsFailed := st.stats.ownRequestsFailed + 1 }
  let backoff := alSet st.backoffByUnit unitId
    (backoffOnTimeout nowMs (alGetD st.backoffByUnit unitId ({} : TimeoutBackoffState)))
  let st : EngineState := { st with stats := stats, backoffByUnit := backoff, waitingForResponse := false, hasPendingRequest := false }
  if st.maxQueueSize / 2 < st.requestQueue.length then
    { st with requestQueue := st.requestQueue.filter (fun r => r.unitId ≠ unitId) }
  else st

/-- The timeout guard of `ModbusRTUFeature::loop`:
`_waitingForResponse && (nowMs - _requestSentTime) > _responseTimeoutMs`. -/
def loopTimeoutCheck (nowMs : Nat) (st : EngineState) : EngineState :=
  if st.waitingForResponse ∧ st.responseTimeoutMs < sub32 nowMs st.requestSentTime then
    timeoutStep nowMs st
  else st

/-- The strict in-flight matching condition of
`ModbusRTUFeature::processReceivedData` (lines 694-709): the received frame
consumes the single in-flight request only when an in-flight request exists,
the frame is CRC-valid, classified as a response, from the expected unit,
with a matching (or matching-exception) function code and — for FC3/FC4
non-exception responses — the byte count implied by the requested
quantity. -/
def consumesInFlight (st : EngineState) (frame : ModbusFrame) : Bool :=
  let expectedFc := st.currentRequest.functionCode
  let expectedFcBase := expectedFc &&& 0x7F
  let fcMatches : Bool := frame.functionCode == expectedFc ||
    (frame.isException && ((frame.functionCode &&& 0x7F) == expectedFcBase))
  let byteCountMatches : Bool :=
    if !frame.isException &&
       (expectedFcBase == ModbusFC.READ_HOLDING_REGISTERS ||
        expectedFcBase == ModbusFC.READ_INPUT_REGISTERS) then
      frame.getByteCount == st.currentRequest.quantity * 2
    else true
  st.waitingForResponse && st.hasPendingRequest && frame.isValid &&
    !frame.isRequest && frame.unitId == st.currentRequest.unitId &&
    fcMatches && byteCountMatches

/-- The body of `ModbusRTUFeature::processReceivedData` that handles one
CRC-valid extracted frame (lines 678-850): consume the in-flight request on
a strict match, otherwise treat the frame as TX echo or foreign traffic. -/
def handleValidFrame (nowMs : Nat) (st : EngineState) (frame : ModbusFrame)
    (isReq : Bool) : EngineState :=
  let st := { st with stats := { st.stats with
    framesReceived := st.stats.framesReceived + 1 } }
  if consumesInFlight st frame then
    -- our response: consume the in-flight request
    let st := { st with waitingForResponse := false,
                        backoffByUnit := alErase st.backoffByUnit frame.unitId,
                        lastSuccessTime := nowMs }
    let st :=
      if !frame.isException then
        { st with stats := { st.stats with
            ownRequestsSuccess := st.stats.ownRequestsSuccess + 1 } }
      else
        { st with stats := { st.stats with
            ownRequestsFailed := st.stats.ownRequestsFailed + 1 } }
    let maps := updateRegisterMap nowMs st.registerMaps st.lastRequest frame
    let st := { st with registerMaps := maps }
    let callbackCopy := st.currentRequest.callback
    let st := { st with hasPendingRequest := false }
    match callbackCopy with
    | some cb =>
      { st with completionLog := st.completionLog ++ [(cb, !frame.isException, frame)] }
    | none => st
  else if isReq then
    if st.waitingForResponse && st.hasPendingRequest && frame.isValid &&
       frame.unitId == st.currentRequest.unitId &&
       ((frame.functionCode &&& 0x7F) == (st.currentRequest.functionCode &&& 0x7F)) &&
       (frame.getStartRegister == st.currentRequest.startRegister) &&
       (frame.getQuantity == st.currentRequest.quantity) then
      st   -- echo of our own TX: discard, do not count as foreign traffic
    else
      let reqFc := frame.functionCode &&& 0x7F
      let st :=
        if reqFc == ModbusFC.READ_HOLDING_REGISTERS ||
           reqFc == ModbusFC.READ_INPUT_REGISTERS then
          { st with registerMaps := mapUpdate st.registerMaps frame.unitId reqFc fun m =>
              { m with requestCount := m.requestCount + 1, lastUpdate := nowMs } }
        else st
      { st with
        lastRequestPerUnit := alSet st.lastRequestPerUnit frame.unitId frame,
        stats := { st.stats with otherRequestsSeen := st.stats.otherRequestsSeen + 1 } }
  else if frame.isException then
    let st := { st with stats := { st.stats with
      otherExceptionsSeen := st.stats.otherExceptionsSeen + 1 } }
    let exFc := frame.functionCode &&& 0x7F
    let st :=
      if exFc == ModbusFC.READ_HOLDING_REGISTERS ||
         exFc == ModbusFC.READ_INPUT_REGISTERS then
        let paired : Bool :=
          match st.lastRequestPerUnit.lookup frame.unitId with
          | some req => req.isValid && ((req.functionCode &&& 0x7F) == exFc) &&
              (req.data.length == 4) && decide (sub32 frame.timestamp req.timestamp < 2000)
          | none => false
        if paired then
          { st with stats := { st.stats with
              otherExceptionsPaired := st.stats.otherExceptionsPaired + 1 } }
        else
          { st with stats := { st.stats with
              otherExceptionsUnpaired := st.stats.otherExceptionsUnpaired + 1 } }
      else st
    if exFc == ModbusFC.READ_HOLDING_REGISTERS ||
       exFc == ModbusFC.READ_INPUT_REGISTERS then
      { st with registerMaps := mapUpdate st.registerMaps frame.unitId exFc fun m =>
          { m with responseCount := m.responseCount + 1,
                   errorCount := m.errorCount + 1, lastUpdate := nowMs } }
    else st
  else
    let st := { st with stats := { st.stats with
      otherResponsesSeen := st.stats.otherResponsesSeen + 1 } }
    let updated : Bool :=
      match st.lastRequestPerUnit.lookup frame.unitId with
      | some req => req.isValid &&
          ((req.functionCode &&& 0x7F) == (frame.functionCode &&& 0x7F)) &&
          (req.data.length == 4) && decide (sub32 frame.timestamp req.timestamp < 2000)
      | none => false
    let st :=
      if updated then
        match st.lastRequestPerUnit.lookup frame.unitId with
        | some req =>
          let maps := updateRegisterMap nowMs st.registerMaps req frame
          { st with registerMaps := maps }
        | none => st
      else st
    let respFc := frame.functionCode &&& 0x7F
    let st :=
      if !updated && (respFc == ModbusFC.READ_HOLDING_REGISTERS ||
                      respFc == ModbusFC.READ_INPUT_REGISTERS) then
        { st with registerMaps := mapUpdate st.registerMaps frame.unitId respFc fun m =>
            { m with responseCount := m.responseCount + 1, lastUpdate := nowMs } }
      else st
    if respFc == ModbusFC.READ_HOLDING_REGISTERS ||
       respFc == ModbusFC.READ_INPUT_REGISTERS then
      if updated then
        { st with stats := { st.stats with
            otherResponsesPaired := st.stats.otherResponsesPaired + 1 } }
      else
        { st with stats := { st.stats with
            otherResponsesUnpaired := st.stats.otherResponsesUnpaired + 1 } }
    else st

/-- Handling of one extracted frame, CRC-valid or not (lines 665-855 of
`processReceivedData`): a CRC-invalid frame only bumps `crcErrors`; both
paths notify the frame observer. -/
def handleExtractedFrame (nowMs : Nat) (st : EngineState) (frame : ModbusFrame)
    (isReq : Bool) : EngineState :=
  let st' :=
    if !frame.isValid then
      { st with stats := { st.stats with crcErrors := st.stats.crcErrors + 1 } }
    else handleValidFrame nowMs st frame isReq
  { st' with frameLog := st'.frameLog ++ [(frame, isReq)] }

/-- Candidate selection of the RX extractor at one cursor position
(`processReceivedData` lines 543-652): fixed spec-sized candidates for
FC3/FC4 (exception, then request, then response with the byte-count
cross-check).  `none` means the byte at the cursor is treated as noise.  The
returned length is 5, 8 or `byteCount + 5` and always at least 5 (recorded
in the subtype so the extraction loop visibly terminates). -/
def tryExtractAt (nowMs unixNow : Nat) (st : EngineState) (p : List Nat) :
    Option (ModbusFrame × Bool × { n : Nat // 5 ≤ n }) :=
  let remaining := p.length
  let unitId := p.getD 0 0
  let fc := p.getD 1 0
  let excTry : Option (ModbusFrame × Bool × { n : Nat // 5 ≤ n }) :=
    if (fc == 0x83 || fc == 0x84) && decide (5 ≤ remaining) then
      match parseFrame nowMs unixNow (p.take 5) with
      | some frame =>
        if frame.isException then some (frame, false, ⟨5, by omega⟩) else none
      | none => none
    else none
  match excTry with
  | some r => some r
  | none =>
    if fc == ModbusFC.READ_HOLDING_REGISTERS || fc == ModbusFC.READ_INPUT_REGISTERS then
      let reqTry : Option (ModbusFrame × Bool × { n : Nat // 5 ≤ n }) :=
        if 8 ≤ remaining then
          match parseFrame nowMs unixNow (p.take 8) with
          | some frame =>
            if !frame.isException && frame.data.length == 4 then
              let qty := frame.getQuantity
              if 1 ≤ qty ∧ qty ≤ 125 then some (frame, true, ⟨8, by omega⟩)
              else none
            else none
          | none => none
        else none
      match reqTry with
      | some r => some r
      | none =>
        if 5 ≤ remaining then
          let byteCount := p.getD 2 0
          if 2 ≤ byteCount ∧ byteCount % 2 = 0 ∧ byteCount ≤ 250 then
            let respLen := byteCount + 5
            if respLen ≤ remaining then
              match parseFrame nowMs unixNow (p.take respLen) with
              | some frame =>
                if !frame.isException then
                  let inflightFc := st.currentRequest.functionCode &&& 0x7F
                  if st.waitingForResponse && st.hasPendingRequest &&
                     unitId == st.currentRequest.unitId && inflightFc == fc then
                    let qty := st.currentRequest.quantity
                    if 1 ≤ qty ∧ qty ≤ 125 ∧ byteCount ≠ qty * 2 then none
                    else some (frame, false, ⟨respLen, by omega⟩)
                  else
                    match st.lastRequestPerUnit.lookup unitId with
                    | some req =>
                      if req.isValid && ((req.functionCode &&& 0x7F) == fc) &&
                         (req.data.length == 4) &&
                         decide (sub32 frame.timestamp req.timestamp < 2000) then
                        let qty := req.getQuantity
                        if 1 ≤ qty ∧ qty ≤ 125 ∧ byteCount ≠ qty * 2 then none
                        else some (frame, false, ⟨respLen, by omega⟩)
                      else some (frame, false, ⟨respLen, by omega⟩)
                    | none => some (frame, false, ⟨respLen, by omega⟩)
                else none
              | none => none
            else none
          else none
        else none
    else none

/-- The extraction loop of `processReceivedData` (`while (i + 4 <=
_rxBuffer.size())`).  Returns the final engine state, the number of
extracted frames, the `sawNoise` flag, and the final cursor.  The loop
advances the cursor by at least one byte per iteration, so `fuel =
buf.length` always reaches the exit condition (`processLoopGo_fuel` below);
the fuel only makes the recursion structural. -/
def processLoopGo (nowMs unixNow rxStartMs charTimeUs : Nat) (buf : List Nat) :
    Nat → EngineState → Nat → Nat → Bool → EngineState × Nat × Bool × Nat
  | 0, st, i, extracted, sawNoise => (st, extracted, sawNoise, i)
  | fuel + 1, st, i, extracted, sawNoise =>
    if i + 4 ≤ buf.length then
      let p := buf.drop i
      let unitId := p.getD 0 0
      if unitId = 0 ∨ 247 < unitId then
        processLoopGo nowMs unixNow rxStartMs charTimeUs buf fuel st (i + 1) extracted true
      else
        match tryExtractAt nowMs unixNow st p with
        | none =>
          processLoopGo nowMs unixNow rxStartMs charTimeUs buf fuel st (i + 1) extracted true
        | some (frame, isReq, len) =>
          let frame := { frame with
            timestamp := (rxStartMs + i * charTimeUs / 1000) % 4294967296,
            unixTimestamp := unixNow, isRequest := isReq }
          processLoopGo nowMs unixNow rxStartMs charTimeUs buf fuel
            (handleExtractedFrame nowMs st frame isReq) (i + len.1) (extracted + 1) sawNoise
    else (st, extracted, sawNoise, i)

/-- Fuel sufficiency: any fuel of at least `buf.length - i` iterations gives
the fixpoint of the loop, so `fuel = buf.length` is the C++ `while` loop. -/
theorem processLoopGo_fuel (nowMs unixNow rxStartMs charTimeUs : Nat)
    (buf : List Nat) :
    ∀ fuel fuel' st i extracted sawNoise,
      buf.length - i ≤ fuel → buf.length - i ≤ fuel' →
      processLoopGo nowMs unixNow rxStartMs charTimeUs buf fuel st i extracted sawNoise =
      processLoopGo nowMs unixNow rxStartMs charTimeUs buf fuel' st i extracted sawNoise := by
  intro fuel
  induction fuel with
  | zero =>
    intro fuel' st i extracted sawNoise h h'
    have hi : buf.length ≤ i := by omega
    cases fuel' with
    | zero => rfl
    | succ n =>
      rw [processLoopGo, processLoopGo]
      rw [if_neg (by omega)]
  | succ n ih =>
    intro fuel' st i extracted sawNoise h h'
    cases fuel' with
    | zero =>
      have hi : buf.length ≤ i := by omega
      rw [processLoopGo, processLoopGo]
      rw [if_neg (by omega)]
    | succ m =>
      rw [processLoopGo, processLoopGo]
      by_cases hc : i + 4 ≤ buf.length
      · rw [if_pos hc, if_pos hc]
        by_cases hn : (buf.drop i).getD 0 0 = 0 ∨ 247 < (buf.drop i).getD 0 0
        · rw [if_pos hn, if_pos hn]
          exact ih m st (i + 1) extracted true (by omega) (by omega)
        · rw [if_neg hn, if_neg hn]
          cases htry : tryExtractAt nowMs unixNow st (buf.drop i) with
          | none => exact ih m st (i + 1) extracted true (by omega) (by omega)
          | some r =>
            obtain ⟨frame, isReq, len⟩ := r
            have := len.2
            exact ih m _ (i + len.1) (extracted + 1) sawNoise (by omega) (by omega)
      · rw [if_neg hc, if_neg hc]

/-- `ModbusRTUFeature::processReceivedData`: run the extractor over the RX
buffer; buffers shorter than 4 bytes are discarded; leftover bytes, or noise
hits when nothing was extracted, bump the CRC-error statistic exactly once
at the end. -/
def processReceivedData (nowMs unixNow rxStartMs charTimeUs : Nat)
    (st : EngineState) (rxBuffer : List Nat) : EngineState :=
  if rxBuffer.length < 4 then st
  else
    let r := processLoopGo nowMs unixNow rxStartMs charTimeUs rxBuffer
      rxBuffer.length st 0 0 false
    let stAfter := r.1
    let extracted := r.2.1
    let sawNoise := r.2.2.1
    let iFinal := r.2.2.2
    if iFinal < rxBuffer.length ∨ (sawNoise ∧ extracted = 0) then
      { stAfter with stats := { stAfter.stats with
          crcErrors := stAfter.stats.crcErrors + 1 } }
    else stAfter

/-! ## Device manager (`ModbusDevice.h` / `ModbusDevice.cpp`) -/

/-- `ModbusDataType`. -/
inductive ModbusDataType where
  | UINT16 | INT16 | UINT32_BE | UINT32_LE | INT32_BE | INT32_LE
  | FLOAT32_BE | FLOAT32_LE | BOOL | STRING
deriving DecidableEq

/-- `ModbusRegisterDef`. -/
structure ModbusRegisterDef where
  name : String := ""
  address : Nat := 0
  length : Nat := 1
  functionCode : Nat := 3
  dataType : ModbusDataType := ModbusDataType.UINT16
  conversionFactor : ℚ := 1
  offset : ℚ := 0
  unit : String := ""
  pollIntervalMs : Nat := 0
deriving DecidableEq

/-- `ModbusRegisterValue` (a value-initialised entry, as produced by
`std::map::operator[]`, has all fields zero and `valid = false`). -/
structure ModbusRegisterValue where
  timestamp : Nat := 0
  updatedAtMs : Nat := 0
  unixTimestamp : Nat := 0
  name : String := ""
  value : ℚ := 0
  unit : String := ""
  valid : Bool := false
deriving DecidableEq

/-- `ModbusDeviceInstance::ModbusPollBatch`. -/
structure ModbusPollBatch where
  functionCode : Nat := 0
  startAddress : Nat := 0
  quantity : Nat := 0
  pollIntervalMs : Nat := 0
  lastPollMs : Nat := 0
  lastAttemptMs : Nat := 0
deriving DecidableEq

/-- `ModbusDeviceInstance` (the fields the modelled operations touch;
`deviceType->registers` is inlined as `registers`). -/
structure ModbusDeviceInstance where
  unitId : Nat := 0
  deviceName : String := ""
  registers : List ModbusRegisterDef := []
  currentValues : List (String × ModbusRegisterValue) := []
  unknownU16 : List (Nat × ModbusRegisterValue) := []
  pollBatches : List ModbusPollBatch := []
  successCount : Nat := 0
  errorCount : Nat := 0
deriving DecidableEq

/-- String-keyed association-list insert-or-overwrite (for
`currentValues`). -/
def asSet : List (String × ModbusRegisterValue) → String → ModbusRegisterValue →
    List (String × ModbusRegisterValue)
  | [], k, v => [(k, v)]
  | (k₀, v₀) :: t, k, v =>
    if k₀ = k then (k, v) :: t else (k₀, v₀) :: asSet t k v

/-- `valuesDiffer` of `ModbusDevice.cpp`: absolute difference above the
`0.0001f` threshold (modelled as the rational `1/10000`). -/
def valuesDiffer (a b : ℚ) : Bool :=
  let diff := a - b
  let diff := if diff < 0 then -diff else diff
  decide (diff > 1 / 10000)

/-- `(int16_t)` reinterpretation of a 16-bit word. -/
def toInt16 (w : Nat) : Int :=
  if w < 32768 then (w : Int) else (w : Int) - 65536

/-- `(int32_t)` reinterpretation of a 32-bit word. -/
def toInt32 (w : Nat) : Int :=
  if w < 2147483648 then (w : Int) else (w : Int) - 4294967296

/-- `ModbusDeviceManager::convertRawToValue`.  `rawData` is the word window
starting at the register's offset; `f32` is the abstract IEEE-754 `float`
reinterpretation of a 32-bit pattern (kept opaque: the claims do not depend
on it). -/
def convertRawToValue (f32 : Nat → ℚ) (d : ModbusRegisterDef) (rawData : List Nat) : ℚ :=
  let w0 := rawData.getD 0 0
  let w1 := rawData.getD 1 0
  let rawValue : ℚ :=
    match d.dataType with
    | ModbusDataType.UINT16 => (w0 : ℚ)
    | ModbusDataType.INT16 => ((toInt16 w0 : Int) : ℚ)
    | ModbusDataType.UINT32_BE => (((w0 <<< 16) ||| w1 : Nat) : ℚ)
    | ModbusDataType.UINT32_LE => (((w1 <<< 16) ||| w0 : Nat) : ℚ)
    | ModbusDataType.INT32_BE => ((toInt32 ((w0 <<< 16) ||| w1) : Int) : ℚ)
    | ModbusDataType.INT32_LE => ((toInt32 ((w1 <<< 16) ||| w0) : Int) : ℚ)
    | ModbusDataType.FLOAT32_BE => f32 ((w0 <<< 16) ||| w1)
    | ModbusDataType.FLOAT32_LE => f32 ((w1 <<< 16) ||| w0)
    | ModbusDataType.BOOL => if w0 ≠ 0 then 1 else 0
    | ModbusDataType.STRING => (w0 : ℚ)
  rawValue * d.conversionFactor + d.offset

/-- A value-change notification
(`notifyValueChange(unitId, registerName, value, unit)`). -/
structure ValueNotification where
  unitId : Nat
  registerName : String
  value : ℚ
  unit : String
deriving DecidableEq

/-- `ModbusDeviceManager::applyReadResponseToDevice`.  Walks the device's
register definitions and, for every definition covered by the read window,
updates the cached value and fires `notifyValueChange` (unconditionally).
Returns the updated device and the list of emitted notifications. -/
def applyReadResponseToDevice (f32 : Nat → ℚ) (nowMs nowUnix : Nat)
    (device : ModbusDeviceInstance) (functionCode pollIntervalMs startAddress : Nat)
    (response : ModbusFrame) : ModbusDeviceInstance × List ValueNotification :=
  if !response.isValid || response.isException then (device, []) else
  match response.getRegisterData with
  | none => (device, [])
  | some data =>
    let byteCount := response.getByteCount
    if byteCount < 2 then (device, []) else
    let wordCount := byteCount / 2
    let words := (List.range wordCount).map fun i =>
      ((data.getD (i * 2) 0 <<< 8) ||| data.getD (i * 2 + 1) 0) % 65536
    device.registers.foldl
      (fun (acc : ModbusDeviceInstance × List ValueNotification) reg =>
        let (dev, notifs) := acc
        if reg.pollIntervalMs ≠ pollIntervalMs then acc
        else if reg.functionCode ≠ functionCode then acc
        else if reg.dataType = ModbusDataType.STRING then acc
        else if reg.address < startAddress then acc
        else
          let offset := reg.address - startAddress
          if wordCount < offset + reg.length then acc
          else
            let value := convertRawToValue f32 reg (words.drop offset)
            let cached := ((dev.currentValues.lookup reg.name).getD {})
            let cached := { cached with
              updatedAtMs := nowMs, unixTimestamp := nowUnix,
              timestamp := if nowUnix ≠ 0 then nowUnix else nowMs / 1000,
              value := value, valid := true }
            ({ dev with currentValues := asSet dev.currentValues reg.name cached },
             notifs ++ [⟨device.unitId, reg.name, value, reg.unit⟩]))
      (device, [])

/-- The register walk of `tryUpdateFromPassiveResponse` (the matching loop
of `ModbusDevice.cpp` lines 121-160), factored out for reuse in the
characterisation lemmas.  Walks the definitions, updating covered registers
and collecting the gated notifications; the final flag records whether any
definition matched. -/
def tryUpdateWalk (f32 : Nat → ℚ) (nowMs nowUnix uid fc startReg respRegCount : Nat)
    (regData : List Nat) (regs : List ModbusRegisterDef) (device : ModbusDeviceInstance) :
    ModbusDeviceInstance × List ValueNotification × Bool :=
  regs.foldl
    (fun (acc : ModbusDeviceInstance × List ValueNotification × Bool) reg =>
      let (dev, notifs, _matchedAny) := acc
      if reg.functionCode ≠ fc then acc
      else if reg.dataType = ModbusDataType.STRING then acc
      else if reg.address < startReg then acc
      else
        let offset := reg.address - startReg
        if respRegCount < offset + reg.length then acc
        else
          let rawData := (List.range reg.length).map fun i =>
            ((regData.getD ((offset + i) * 2) 0 <<< 8) |||
              regData.getD ((offset + i) * 2 + 1) 0) % 65536
          let value := convertRawToValue f32 reg rawData
          let cached := ((dev.currentValues.lookup reg.name).getD {})
          let shouldNotify := !cached.valid || valuesDiffer cached.value value
          let cached := { cached with
            updatedAtMs := nowMs, unixTimestamp := nowUnix,
            timestamp := if nowUnix ≠ 0 then nowUnix else nowMs / 1000,
            value := value, valid := true }
          let dev := { dev with currentValues := asSet dev.currentValues reg.name cached }
          if shouldNotify then
            (dev, notifs ++ [⟨uid, reg.name, value, reg.unit⟩], true)
          else (dev, notifs, true))
    (device, [], false)

/-- `ModbusDeviceManager::tryUpdateFromPassiveResponse`.  Same update walk
as the active path, but pairs an observed response with an observed request,
fires `onValueChange` only when the value moved by more than the threshold
or was previously invalid, and collects unmatched words as unknown `U16_`
registers (bounded to 512 per device). -/
def tryUpdateFromPassiveResponse (f32 : Nat → ℚ) (nowMs nowUnix : Nat)
    (device : ModbusDeviceInstance) (request response : ModbusFrame) :
    ModbusDeviceInstance × List ValueNotification :=
  if !request.isValid || !response.isValid then (device, []) else
  if response.isException then (device, []) else
  let fc := response.functionCode &&& 0x7F
  if fc ≠ ModbusFC.READ_HOLDING_REGISTERS ∧ fc ≠ ModbusFC.READ_INPUT_REGISTERS then
    (device, [])
  else if (request.functionCode &&& 0x7F) ≠ fc then (device, [])
  else
  match response.getRegisterData with
  | none => (device, [])
  | some regData =>
    let byteCount := response.getByteCount
    if byteCount < 2 then (device, []) else
    let startReg := request.getStartRegister
    let respRegCount := byteCount / 2
    if respRegCount = 0 then (device, []) else
    let step := tryUpdateWalk f32 nowMs nowUnix device.unitId fc startReg
      respRegCount regData device.registers device
    let (dev, notifs, matchedAny) := step
    if matchedAny then (dev, notifs)
    else
      -- interpret the pair as unknown uint16 registers (cap 512, no eviction)
      let dev := (List.range respRegCount).foldl
        (fun (dev : ModbusDeviceInstance) i =>
          let address := (startReg + i) % 65536
          if (dev.unknownU16.lookup address).isNone ∧ 512 ≤ dev.unknownU16.length then
            dev
          else
            let word := ((regData.getD (i * 2) 0 <<< 8) ||| regData.getD (i * 2 + 1) 0) % 65536
            let v := ((dev.unknownU16.lookup address).getD {})
            let v := { v with
              updatedAtMs := nowMs, unixTimestamp := nowUnix,
              timestamp := if nowUnix ≠ 0 then nowUnix else nowMs / 1000,
              name := "U16_" ++ toString address, value := (word : ℚ),
              unit := "", valid := true }
            { dev with unknownU16 := alSet dev.unknownU16 address v })
        dev
      (dev, notifs)

/-! ## Poll-plan builder (`ModbusDeviceManager::rebuildPollBatches`) -/

/-- The `Seg` helper struct of `rebuildPollBatches` (`end` is `stop` here:
`end` is reserved).  `stop = (uint16_t)(address + length - 1)`. -/
structure Seg where
  start : Nat
  stop : Nat
  fc : Nat
  interval : Nat
deriving DecidableEq

/-- The polled segments of a register list (the first loop of
`rebuildPollBatches`). -/
def polledSegs (regs : List ModbusRegisterDef) : List Seg :=
  regs.filterMap fun r =>
    if r.pollIntervalMs = 0 then none
    else some ⟨r.address % 65536, (r.address + r.length + 65535) % 65536,
               r.functionCode, r.pollIntervalMs⟩

/-- The strict comparator passed to `std::sort`: lexicographic on
`(fc, interval, start)`. -/
def segLt (a b : Seg) : Bool :=
  if a.fc ≠ b.fc then a.fc < b.fc
  else if a.interval ≠ b.interval then a.interval < b.interval
  else a.start < b.start

/-- The total preorder induced by `segLt`, used with the (stable)
`List.mergeSort` as the deterministic model of `std::sort`. -/
def segLE (a b : Seg) : Bool := !segLt b a

/-- `flushWindow` of `rebuildPollBatches`:
`qty = (uint16_t)(we - ws + 1)`, windows of quantity 0 are dropped. -/
def flushWindow (fc interval ws we : Nat) (acc : List ModbusPollBatch) :
    List ModbusPollBatch :=
  let qty := (we + 1 + 65536 - ws) % 65536
  if qty = 0 then acc else acc ++ [⟨fc, ws, qty, interval, 0, 0⟩]

/-- The merge loop of `rebuildPollBatches` over the sorted segments
(`GAP_ALLOW_REGS = 0`, `MAX_REGS_PER_READ = 125`). -/
def mergeGo : List Seg → Nat → Nat → Nat → Nat → List ModbusPollBatch →
    List ModbusPollBatch
  | [], curFc, curInterval, ws, we, acc => flushWindow curFc curInterval ws we acc
  | s :: rest, curFc, curInterval, ws, we, acc =>
    if s.fc ≠ curFc ∨ s.interval ≠ curInterval then
      mergeGo rest s.fc s.interval s.start s.stop (flushWindow curFc curInterval ws we acc)
    else
      let mergedEnd := if we < s.stop then s.stop else we
      let mergedLen := (mergedEnd + 1 + 65536 - ws) % 65536
      if s.start ≤ (we + 1) % 65536 ∧ mergedLen ≤ 125 then
        mergeGo rest curFc curInterval ws mergedEnd acc
      else
        mergeGo rest curFc curInterval s.start s.stop (flushWindow curFc curInterval ws we acc)

/-- `ModbusDeviceManager::rebuildPollBatches` as a function of the device's
register definitions: keep the polled definitions, sort by
`(fc, interval, start)`, merge strictly contiguous windows up to 125
registers. -/
def rebuildPollBatches (regs : List ModbusRegisterDef) : List ModbusPollBatch :=
  match (polledSegs regs).mergeSort segLE with
  | [] => []
  | s :: rest => mergeGo rest s.fc s.interval s.start s.stop []

/-! ## Association-list lemmas -/

theorem lookup_alSet_self {β : Type} (m : List (Nat × β)) (k : Nat) (v : β) :
    (alSet m k v).lookup k = some v := by
  induction m with
  | nil => simp [alSet]
  | cons hd t ih =>
    obtain ⟨k₀, v₀⟩ := hd
    by_cases h : k₀ = k
    · simp [alSet, h]
    · have hb : (k == k₀) = false := by
        simp only [beq_eq_false_iff_ne, ne_eq]
        exact fun he => h he.symm
      simp only [alSet, if_neg h, List.lookup_cons, hb]
      exact ih

theorem lookup_alSet_ne {β : Type} (m : List (Nat × β)) (k k' : Nat) (v : β)
    (h : k' ≠ k) : (alSet m k v).lookup k' = m.lookup k' := by
  have hb : (k' == k) = false := by simp only [beq_eq_false_iff_ne, ne_eq]; exact h
  induction m with
  | nil => simp [alSet, List.lookup_cons, hb]
  | cons hd t ih =>
    obtain ⟨k₀, v₀⟩ := hd
    by_cases h₀ : k₀ = k
    · subst h₀
      simp [alSet, List.lookup_cons, hb]
    · simp only [alSet, if_neg h₀, List.lookup_cons, ih]

theorem lookup_alErase_self {β : Type} (m : List (Nat × β)) (k : Nat) :
    (alErase m k).lookup k = none := by
  induction m with
  | nil => rfl
  | cons hd t ih =>
    obtain ⟨k₀, v₀⟩ := hd
    by_cases h : k₀ = k
    · simpa [alErase, h] using ih
    · have hb : (k == k₀) = false := by
        simp only [beq_eq_false_iff_ne, ne_eq]
        exact fun he => h he.symm
      simp only [alErase, if_neg h, List.lookup_cons, hb]
      exact ih

theorem lookup_alErase_ne {β : Type} (m : List (Nat × β)) (k k' : Nat)
    (h : k' ≠ k) : (alErase m k).lookup k' = m.lookup k' := by
  have hb : (k' == k) = false := by simp only [beq_eq_false_iff_ne, ne_eq]; exact h
  induction m with
  | nil => rfl
  | cons hd t ih =>
    obtain ⟨k₀, v₀⟩ := hd
    by_cases h₀ : k₀ = k
    · subst h₀
      simp [alErase, List.lookup_cons, hb, ih]
    · simp only [alErase, if_neg h₀, List.lookup_cons, ih]

/-! ## `handleValidFrame` characterisation lemmas -/

theorem consumesInFlight_set_stats (st : EngineState) (s : ModbusStats)
    (f : ModbusFrame) :
    consumesInFlight { st with stats := s } f = consumesInFlight st f := rfl

/-- A frame that does not satisfy the strict match leaves the in-flight
request, the completion log and the back-off table untouched. -/
theorem handleValidFrame_not_consumed (nowMs : Nat) (st : EngineState)
    (frame : ModbusFrame) (isReq : Bool)
    (h : consumesInFlight st frame = false) :
    (handleValidFrame nowMs st frame isReq).waitingForResponse = st.waitingForResponse ∧
    (handleValidFrame nowMs st frame isReq).hasPendingRequest = st.hasPendingRequest ∧
    (handleValidFrame nowMs st frame isReq).currentRequest = st.currentRequest ∧
    (handleValidFrame nowMs st frame isReq).completionLog = st.completionLog ∧
    (handleValidFrame nowMs st frame isReq).backoffByUnit = st.backoffByUnit := by
  unfold handleValidFrame
  simp only [consumesInFlight_set_stats, h, Bool.false_eq_true, if_false]
  repeat' split
  all_goals simp

/-- A frame that satisfies the strict match consumes the in-flight request:
the slot is released, the unit's back-off entry is erased, and the
completion (when present) is invoked exactly once with
`success = !isException`. -/
theorem handleValidFrame_consumed (nowMs : Nat) (st : EngineState)
    (frame : ModbusFrame) (isReq : Bool)
    (h : consumesInFlight st frame = true) :
    (handleValidFrame nowMs st frame isReq).waitingForResponse = false ∧
    (handleValidFrame nowMs st frame isReq).hasPendingRequest = false ∧
    (handleValidFrame nowMs st frame isReq).backoffByUnit =
      alErase st.backoffByUnit frame.unitId ∧
    (handleValidFrame nowMs st frame isReq).completionLog =
      (match st.currentRequest.callback with
       | some cb => st.completionLog ++ [(cb, !frame.isException, frame)]
       | none => st.completionLog) := by
  unfold handleValidFrame
  simp only [consumesInFlight_set_stats, h, if_true]
  split <;> split <;> simp_all

theorem getD_take {l : List Nat} {i n d : Nat} (h : i < n) :
    (l.take n).getD i d = l.getD i d := by
  simp [List.getD, List.getElem?_take, h]

/-! ## Claim theorems -/

/-- C10: the derived accessors of `ModbusFrame` are total and never read
past the stored payload: `getStartRegister` is 0 when `dataLen < 2` and
otherwise reads only the first two payload bytes, `getQuantity` is 0 when
`dataLen < 4` and otherwise reads only the first four, `getByteCount` is 0
when `dataLen < 1` and otherwise reads only the first byte, and
`getRegisterData` is null when `dataLen <= 1` and otherwise is exactly the
payload after the first byte. -/
theorem c10_frame_accessor_bounds (f : ModbusFrame) :
    f.getStartRegister = (if 2 ≤ f.data.length then
        (((f.data.take 2).getD 0 0 <<< 8) ||| (f.data.take 2).getD 1 0) % 65536
      else 0) ∧
    f.getQuantity = (if 4 ≤ f.data.length then
        (((f.data.take 4).getD 2 0 <<< 8) ||| (f.data.take 4).getD 3 0) % 65536
      else 0) ∧
    f.getByteCount = (if 1 ≤ f.data.length then (f.data.take 1).getD 0 0 else 0) ∧
    f.getRegisterData = (if 1 < f.data.length then some (f.data.drop 1) else none) := by
  refine ⟨?_, ?_, ?_, rfl⟩
  · unfold ModbusFrame.getStartRegister
    split
    · rw [getD_take (by omega), getD_take (by omega)]
    · rfl
  · unfold ModbusFrame.getQuantity
    split
    · rw [getD_take (by omega), getD_take (by omega)]
    · rfl
  · unfold ModbusFrame.getByteCount
    split
    · rw [getD_take (by omega)]
    · rfl

/-- C9: after a timeout of a request to unit `A`, when the queue holds more
than half its capacity, the engine removes from the queue exactly the
requests whose `unitId` is `A`; requests for every other unit survive, in
their original order. -/
theorem c9_timeout_drops_only_that_unit (nowMs : Nat) (st : EngineState)
    (h : st.maxQueueSize / 2 < st.requestQueue.length) :
    (timeoutStep nowMs st).requestQueue =
      st.requestQueue.filter (fun r => r.unitId ≠ st.currentRequest.unitId) ∧
    (timeoutStep nowMs st).requestQueue.Sublist st.requestQueue ∧
    (∀ r ∈ st.requestQueue, r.unitId ≠ st.currentRequest.unitId →
      r ∈ (timeoutStep nowMs st).requestQueue) ∧
    (∀ r ∈ (timeoutStep nowMs st).requestQueue,
      r.unitId ≠ st.currentRequest.unitId) := by
  have hq : (timeoutStep nowMs st).requestQueue =
      st.requestQueue.filter (fun r => r.unitId ≠ st.currentRequest.unitId) := by
    unfold timeoutStep
    simp only []
    rw [if_pos h]
  refine ⟨hq, ?_, ?_, ?_⟩
  · rw [hq]; exact List.filter_sublist _
  · intro r hr hne
    rw [hq]
    simp only [List.mem_filter, decide_eq_true_eq]
    exact ⟨hr, hne⟩
  · intro r hr
    rw [hq] at hr
    simp only [List.mem_filter, decide_eq_true_eq] at hr
    exact hr.2

/-- A concrete engine state with a queue above half capacity, holding
requests for the timed-out unit 7 and for the healthy unit 9. -/
def c9State : EngineState where
  maxQueueSize := 2
  currentRequest := { unitId := 7 }
  requestQueue := [{ unitId := 7 }, { unitId := 9 }]

/-- Witness for C9 at a concrete state. -/
theorem c9_timeout_drops_only_that_unit_witness :
    c9State.maxQueueSize / 2 < c9State.requestQueue.length ∧
    (timeoutStep 0 c9State).requestQueue = [{ unitId := 9 }] :=
  ⟨by decide,
   by
    have h := c9_timeout_drops_only_that_unit 0 c9State (by decide)
    rw [h.1]
    decide⟩

theorem backoffOnTimeout_consecutive (nowMs : Nat) (b : TimeoutBackoffState) :
    (backoffOnTimeout nowMs b).consecutiveTimeouts = b.consecutiveTimeouts + 1 := by
  simp only [backoffOnTimeout]
  repeat' split
  all_goals rfl

theorem alGetD_consecutive (st : EngineState) (u : Nat) :
    (alGetD st.backoffByUnit u ({} : TimeoutBackoffState)).consecutiveTimeouts =
      getUnitConsecutiveTimeouts st u := by
  unfold alGetD getUnitConsecutiveTimeouts
  cases st.backoffByUnit.lookup u <;> rfl

/-- C4: when an in-flight request times out, the engine never invokes the
completion; it bumps the timeout and own-failed counters, bumps the unit's
consecutive-timeout count, and releases the in-flight slot.  Moreover the
frame handler invokes a completion only when the received frame satisfies
the strict in-flight match. -/
theorem c4_timeout_never_invokes_completion (nowMs : Nat) (st : EngineState) :
    (timeoutStep nowMs st).completionLog = st.completionLog ∧
    (timeoutStep nowMs st).stats.timeouts = st.stats.timeouts + 1 ∧
    (timeoutStep nowMs st).stats.ownRequestsFailed = st.stats.ownRequestsFailed + 1 ∧
    (timeoutStep nowMs st).waitingForResponse = false ∧
    (timeoutStep nowMs st).hasPendingRequest = false ∧
    getUnitConsecutiveTimeouts (timeoutStep nowMs st) st.currentRequest.unitId =
      getUnitConsecutiveTimeouts st st.currentRequest.unitId + 1 ∧
    (∀ frame isReq,
      (handleExtractedFrame nowMs st frame isReq).completionLog ≠ st.completionLog →
      consumesInFlight st frame = true) := by
  refine ⟨?_, ?_, ?_, ?_, ?_, ?_, ?_⟩
  · simp only [timeoutStep]; split <;> rfl
  · simp only [timeoutStep]; split <;> rfl
  · simp only [timeoutStep]; split <;> rfl
  · simp only [timeoutStep]; split <;> rfl
  · simp only [timeoutStep]; split <;> rfl
  · have hb : (timeoutStep nowMs st).backoffByUnit =
        alSet st.backoffByUnit st.currentRequest.unitId
          (backoffOnTimeout nowMs
            (alGetD st.backoffByUnit st.currentRequest.unitId ({} : TimeoutBackoffState))) := by
      simp only [timeoutStep]; split <;> rfl
    unfold getUnitConsecutiveTimeouts
    rw [hb, lookup_alSet_self]
    show (backoffOnTimeout nowMs
      (alGetD st.backoffByUnit st.currentRequest.unitId
        ({} : TimeoutBackoffState))).consecutiveTimeouts = _
    rw [backoffOnTimeout_consecutive, alGetD_consecutive]
    rfl
  · intro frame isReq hlog
    by_contra hcon
    have hfalse : consumesInFlight st frame = false := by
      cases hc : consumesInFlight st frame
      · rfl
      · exact absurd hc hcon
    apply hlog
    unfold handleExtractedFrame
    split
    all_goals
      first
      | rfl
      | exact (handleValidFrame_not_consumed nowMs st frame isReq hfalse).2.2.2.1

/-- Witness for C4 (the last conjunct has hypotheses): at a concrete state
and frame whose handling does change the completion log, the strict match
holds. -/
theorem c4_timeout_never_invokes_completion_witness :
    (timeoutStep 5 ({ currentRequest := { unitId := 2 } } : EngineState)).completionLog = [] ∧
    (timeoutStep 5 ({ currentRequest := { unitId := 2 } } : EngineState)).stats.timeouts = 1 :=
  ⟨by
    rw [(c4_timeout_never_invokes_completion 5 { currentRequest := { unitId := 2 } }).1],
   by
    rw [(c4_timeout_never_invokes_completion 5 { currentRequest := { unitId := 2 } }).2.1]⟩

/-- C7: `queueReadRegisters` returns `false` (with the discarded metric
bumped and the queue untouched) exactly when the queue is at capacity or
free heap is below the 25000-byte low-water mark; its result never depends
on the back-off table; and the pause gate is applied only in
`processQueue`, which picks the first queued request whose unit is not
paused and sends nothing when every queued unit is paused. -/
theorem c7_enqueue_and_send_gate (st : EngineState)
    (freeHeap nowMs unixNow u fc s q : Nat) (cb : Option Nat) :
    ((queueReadRegisters freeHeap nowMs st u fc s q cb).2 = false ↔
      (st.maxQueueSize ≤ st.requestQueue.length ∨ freeHeap < 25000)) ∧
    ((queueReadRegisters freeHeap nowMs st u fc s q cb).2 = false →
      (queueReadRegisters freeHeap nowMs st u fc s q cb).1.stats.ownRequestsDiscarded =
        st.stats.ownRequestsDiscarded + 1 ∧
      (queueReadRegisters freeHeap nowMs st u fc s q cb).1.requestQueue =
        st.requestQueue) ∧
    (∀ b, (queueReadRegisters freeHeap nowMs { st with backoffByUnit := b } u fc s q cb).2 =
      (queueReadRegisters freeHeap nowMs st u fc s q cb).2) ∧
    ((∀ r ∈ st.requestQueue, isUnitQueueingPaused nowMs st r.unitId = true) →
      processQueue nowMs unixNow st = (st, none, none)) ∧
    (∀ i, i < st.requestQueue.length →
      (∀ j, j < i →
        isUnitQueueingPaused nowMs st (st.requestQueue.getD j {}).unitId = true) →
      isUnitQueueingPaused nowMs st (st.requestQueue.getD i {}).unitId = false →
      (processQueue nowMs unixNow st).2.1 = some (st.requestQueue.getD i {})) := by
  refine ⟨?_, ?_, ?_, ?_, ?_⟩
  · unfold queueReadRegisters
    by_cases h₁ : st.maxQueueSize ≤ st.requestQueue.length
    · simp [h₁]
    · by_cases h₂ : freeHeap < 25000 <;> simp [h₁, h₂]
  · intro hfalse
    unfold queueReadRegisters at hfalse ⊢
    by_cases h₁ : st.maxQueueSize ≤ st.requestQueue.length
    · simp [h₁]
    · by_cases h₂ : freeHeap < 25000
      · simp [h₁, h₂]
      · simp [h₁, h₂] at hfalse
  · intro b
    by_cases h₁ : st.maxQueueSize ≤ st.requestQueue.length
    · simp [queueReadRegisters, h₁]
    · by_cases h₂ : freeHeap < 25000 <;> simp [queueReadRegisters, h₁, h₂]
  · intro hall
    unfold processQueue
    by_cases hq : st.requestQueue.isEmpty
    · rw [if_pos hq]
    · rw [if_neg hq]
      have hfind : st.requestQueue.findIdx?
          (fun r => !isUnitQueueingPaused nowMs st r.unitId) = none := by
        rw [List.findIdx?_eq_none_iff]
        intro r hr
        simp [hall r hr]
      rw [hfind]
  · intro i hi hbefore hfree
    have hgetD : st.requestQueue.getD i {} = st.requestQueue[i] := by
      rw [List.getD_eq_getElem?_getD, List.getElem?_eq_getElem hi]
      rfl
    have hfind : st.requestQueue.findIdx?
        (fun r => !isUnitQueueingPaused nowMs st r.unitId) = some i := by
      rw [List.findIdx?_eq_some_iff_getElem]
      refine ⟨hi, ?_, ?_⟩
      · rw [← hgetD, hfree]
        rfl
      · intro j hj
        have hj' : j < st.requestQueue.length := Nat.lt_trans hj hi
        have hgetDj : st.requestQueue.getD j {} = st.requestQueue[j] := by
          rw [List.getD_eq_getElem?_getD, List.getElem?_eq_getElem hj']
          rfl
        rw [← hgetDj, hbefore j hj]
        simp
    have hne : st.requestQueue.isEmpty = false := by
      cases hq : st.requestQueue with
      | nil => rw [hq] at hi; simp at hi
      | cons a t => rfl
    unfold processQueue
    rw [if_neg (by rw [hne]; exact Bool.false_ne_true), hfind]
    simp only [List.getD_eq_getElem?_getD]
    cases hbody : encodeRequestBody
        (st.requestQueue[i]?.getD ({} : ModbusPendingRequest)) <;>
      simp [hbody]

/-- A concrete engine state for the C7 witness: unit 3 is paused by
back-off, unit 4 is healthy, and the queue holds one request for each. -/
def c7State : EngineState where
  requestQueue := [{ unitId := 3, functionCode := 3, quantity := 1 },
                   { unitId := 4, functionCode := 3, quantity := 1 }]
  backoffByUnit := [(3, { consecutiveTimeouts := 5, backoffMs := 8000,
                          pausedUntilMs := 1000000 })]

/-- Witness for C7: with unit 3 paused, `processQueue` picks the unit-4
request sitting behind it, and a rejected enqueue on a full queue reports
`false`. -/
theorem c7_enqueue_and_send_gate_witness :
    (processQueue 0 0 c7State).2.1 =
      some { unitId := 4, functionCode := 3, quantity := 1 } ∧
    (queueReadRegisters 30000 0 { c7State with maxQueueSize := 2 } 9 3 0 1 none).2 = false := by
  constructor
  · have h := (c7_enqueue_and_send_gate c7State 30000 0 0 9 3 0 1 none).2.2.2.2
      1 (by decide)
      (by
        intro j hj
        interval_cases j
        decide)
      (by decide)
    rw [h]
    decide
  · exact ((c7_enqueue_and_send_gate { c7State with maxQueueSize := 2 }
      30000 0 0 9 3 0 1 none).1).mpr (by decide)

/-- `n` consecutive timeouts (at arbitrary times `times 0 .. times (n-1)`)
applied to a fresh per-unit back-off state, as performed by the timeout
branch of `loop`. -/
def iterBackoff : Nat → (Nat → Nat) → TimeoutBackoffState
  | 0, _ => {}
  | n + 1, times => backoffOnTimeout (times n) (iterBackoff n times)

/-- A concrete engine state with an existing back-off streak for unit 5 and
no in-flight request. -/
def c2State : EngineState where
  backoffByUnit := [(5, { consecutiveTimeouts := 4, backoffMs := 8000,
                          pausedUntilMs := 100 })]

/-- A CRC-valid FC3 success response from unit 5 (byte count 2, one
register of value 7). -/
def c2Frame : ModbusFrame :=
  (parseFrame 0 0 (appendCRC [5, 3, 2, 0, 7])).getD {}

set_option maxRecDepth 4000 in
/-- C2 counterexample: `c2Frame` is a CRC-valid, non-exception response
from unit 5, yet — because it does not consume the in-flight request (none
is pending) — handling it leaves unit 5's `consecutiveTimeouts` at 4 and
its `backoffMs` at 8000, contradicting the claim that any CRC-valid
response from that unit resets the series. -/
theorem c2_counterexample :
    c2Frame.isValid = true ∧ c2Frame.unitId = 5 ∧ c2Frame.isException = false ∧
    c2Frame.isRequest = false ∧
    getUnitConsecutiveTimeouts (handleExtractedFrame 0 c2State c2Frame false) 5 = 4 ∧
    getUnitQueueingBackoffMs (handleExtractedFrame 0 c2State c2Frame false) 5 = 8000 := by
  decide

/-- C2 (amended): consecutive timeouts drive a unit's `backoffMs` through
2000, 2000, 4000, 8000, ... doubling from the third timeout on and clamped
at 60000, with `consecutiveTimeouts` counting the streak; the streak and
back-off reset (to 0 and 2000, the state of an absent entry) exactly when a
received frame consumes the in-flight request — a CRC-valid response from
the unit that does not consume the in-flight request leaves the back-off
state untouched. -/
theorem c2_backoff_progression_and_reset :
    (∀ n times, (iterBackoff n times).consecutiveTimeouts = n ∧
      (iterBackoff n times).backoffMs =
        (if n ≤ 2 then 2000 else min (2000 * 2 ^ (n - 2)) 60000)) ∧
    (∀ nowMs st, (timeoutStep nowMs st).backoffByUnit =
      alSet st.backoffByUnit st.currentRequest.unitId
        (backoffOnTimeout nowMs
          (alGetD st.backoffByUnit st.currentRequest.unitId ({} : TimeoutBackoffState)))) ∧
    (∀ nowMs st frame isReq, consumesInFlight st frame = true →
      getUnitConsecutiveTimeouts (handleExtractedFrame nowMs st frame isReq)
        frame.unitId = 0 ∧
      getUnitQueueingBackoffMs (handleExtractedFrame nowMs st frame isReq)
        frame.unitId = 2000) ∧
    (∀ nowMs st frame isReq, consumesInFlight st frame = false →
      (handleExtractedFrame nowMs st frame isReq).backoffByUnit =
        st.backoffByUnit) := by
  refine ⟨?_, ?_, ?_, ?_⟩
  · intro n times
    induction n with
    | zero => exact ⟨rfl, rfl⟩
    | succ n ih =>
      obtain ⟨ihc, ihb⟩ := ih
      constructor
      · rw [iterBackoff, backoffOnTimeout_consecutive, ihc]
      · show (backoffOnTimeout (times n) (iterBackoff n times)).backoffMs = _
        simp only [backoffOnTimeout, ihc, ihb]
        by_cases h3 : 3 ≤ n + 1
        · rw [if_pos h3]
          by_cases h2 : n ≤ 2
          · -- n = 2: first doubling, 2000 -> 4000
            have hn : n = 2 := by omega
            subst hn
            norm_num
          · rw [if_neg h2]
            have hpow : 2000 * 2 ^ (n + 1 - 2) = (2000 * 2 ^ (n - 2)) * 2 := by
              have : n + 1 - 2 = (n - 2) + 1 := by omega
              rw [this, pow_succ]
              ring
            by_cases hcap : min (2000 * 2 ^ (n - 2)) 60000 < 60000
            · rw [if_pos hcap]
              simp only []
              have hlt : 2000 * 2 ^ (n - 2) < 60000 := by
                rcases Nat.lt_or_ge (2000 * 2 ^ (n - 2)) 60000 with h | h
                · exact h
                · rw [min_eq_right h] at hcap; omega
              rw [min_eq_left (le_of_lt hlt), if_neg (by omega), hpow]
            · rw [if_neg hcap, if_neg (by omega)]
              have hge : 60000 ≤ 2000 * 2 ^ (n - 2) := by
                rcases Nat.lt_or_ge (2000 * 2 ^ (n - 2)) 60000 with h | h
                · rw [min_eq_left (le_of_lt h)] at hcap; omega
                · exact h
              rw [min_eq_right hge]
              have : 60000 ≤ 2000 * 2 ^ (n + 1 - 2) := by
                rw [hpow]; omega
              rw [min_eq_right this]
        · have hn : n ≤ 2 := by omega
          have hn1 : n + 1 ≤ 2 := by omega
          rw [if_neg h3, if_pos hn1, if_pos hn]
  · intro nowMs st
    simp only [timeoutStep]
    split <;> rfl
  · intro nowMs st frame isReq h
    have hb : (handleExtractedFrame nowMs st frame isReq).backoffByUnit =
        alErase st.backoffByUnit frame.unitId := by
      unfold handleExtractedFrame
      have hval : frame.isValid = true := by
        by_contra hcon
        have : frame.isValid = false := by
          cases hv : frame.isValid
          · rfl
          · exact absurd hv hcon
        unfold consumesInFlight at h
        simp [this] at h
      simp only [hval, Bool.not_true, Bool.false_eq_true, if_false]
      exact (handleValidFrame_consumed nowMs st frame isReq h).2.2.1
    constructor
    · unfold getUnitConsecutiveTimeouts
      rw [hb, lookup_alErase_self]
    · unfold getUnitQueueingBackoffMs
      rw [hb, lookup_alErase_self]
  · intro nowMs st frame isReq h
    unfold handleExtractedFrame
    split
    · rfl
    · exact (handleValidFrame_not_consumed nowMs st frame isReq h).2.2.2.2

set_option maxRecDepth 4000 in
/-- Witness for C2 (amended): the back-off series at 5 consecutive
timeouts, and a consuming response resetting unit 5's streak. -/
theorem c2_backoff_progression_and_reset_witness :
    (iterBackoff 5 (fun _ => 0)).backoffMs = 16000 ∧
    consumesInFlight
      { waitingForResponse := true, hasPendingRequest := true,
        currentRequest := { unitId := 5, functionCode := 3, quantity := 1 },
        backoffByUnit := [(5, { consecutiveTimeouts := 9 })] } c2Frame = true ∧
    getUnitConsecutiveTimeouts
      (handleExtractedFrame 0
        { waitingForResponse := true, hasPendingRequest := true,
          currentRequest := { unitId := 5, functionCode := 3, quantity := 1 },
          backoffByUnit := [(5, { consecutiveTimeouts := 9 })] } c2Frame false) 5 = 0 := by
  refine ⟨?_, by decide, ?_⟩
  · rw [(c2_backoff_progression_and_reset.1 5 (fun _ => 0)).2]
    decide
  · exact ((c2_backoff_progression_and_reset.2.2.1 0
      { waitingForResponse := true, hasPendingRequest := true,
        currentRequest := { unitId := 5, functionCode := 3, quantity := 1 },
        backoffByUnit := [(5, { consecutiveTimeouts := 9 })] } c2Frame false (by decide)).1).trans
      (by decide)

theorem and127_eq_mod (x : Nat) : x &&& 127 = x % 128 := by
  have h : (127 : Nat) = 2 ^ 7 - 1 := by decide
  rw [h, Nat.and_pow_two_sub_one_eq_mod]

/-- The strict in-flight match, written in the claim's terms: CRC-valid,
classified as a non-request, same unit as the in-flight request, function
code equal to the in-flight one or its exception form, and — for FC3/FC4
non-exception responses — byte count equal to twice the in-flight
quantity.  Equivalent to `consumesInFlight` for byte-valued function codes
(`consumesInFlight_iff_claim`). -/
def claimMatchC1 (st : EngineState) (frame : ModbusFrame) : Prop :=
  frame.isValid = true ∧ frame.isRequest = false ∧
  frame.unitId = st.currentRequest.unitId ∧
  (frame.functionCode = st.currentRequest.functionCode ∨
    frame.functionCode = st.currentRequest.functionCode + 128) ∧
  ((frame.isException = false ∧
    (frame.functionCode = ModbusFC.READ_HOLDING_REGISTERS ∨
     frame.functionCode = ModbusFC.READ_INPUT_REGISTERS)) →
    frame.getByteCount = 2 * st.currentRequest.quantity)

theorem consumesInFlight_iff_claim (st : EngineState) (frame : ModbusFrame)
    (hw : st.waitingForResponse = true) (hp : st.hasPendingRequest = true)
    (hcfc : st.currentRequest.functionCode < 128)
    (hfc : frame.functionCode < 256)
    (hexc : frame.isValid = true →
      (frame.isException = true ↔ 128 ≤ frame.functionCode)) :
    consumesInFlight st frame = true ↔ claimMatchC1 st frame := by
  unfold consumesInFlight claimMatchC1
  simp only [hw, hp, Bool.true_and, Bool.and_eq_true, Bool.not_eq_eq_eq_not,
    Bool.not_true, beq_iff_eq, Bool.or_eq_true, Bool.and_eq_true]
  constructor
  · rintro ⟨⟨⟨⟨hval, hreq⟩, hunit⟩, hfcm⟩, hbc⟩
    have hreq' : frame.isRequest = false := by simpa using hreq
    refine ⟨hval, hreq', hunit, ?_, ?_⟩
    · rcases hfcm with h | ⟨hex, hbase⟩
      · exact Or.inl h
      · right
        have h128 : 128 ≤ frame.functionCode := ((hexc hval).mp hex)
        rw [and127_eq_mod, and127_eq_mod] at hbase
        omega
    · rintro ⟨hnex, hfc34⟩
      by_cases hcase : frame.isException = false ∧
          (st.currentRequest.functionCode &&& 127 = ModbusFC.READ_HOLDING_REGISTERS ∨
           st.currentRequest.functionCode &&& 127 = ModbusFC.READ_INPUT_REGISTERS)
      · rw [if_pos hcase] at hbc
        simp only [beq_iff_eq] at hbc
        omega
      · exfalso
        apply hcase
        have hfceq : frame.functionCode = st.currentRequest.functionCode := by
          rcases hfcm with h | ⟨hex, _⟩
          · exact h
          · rw [hnex] at hex; exact absurd hex (by simp)
        refine ⟨hnex, ?_⟩
        rw [and127_eq_mod]
        unfold ModbusFC.READ_HOLDING_REGISTERS ModbusFC.READ_INPUT_REGISTERS at hfc34 ⊢
        omega
  · rintro ⟨hval, hreq, hunit, hfcm, hbc⟩
    refine ⟨⟨⟨⟨hval, by simpa using hreq⟩, hunit⟩, ?_⟩, ?_⟩
    · rcases hfcm with h | h
      · exact Or.inl h
      · right
        have h128 : 128 ≤ frame.functionCode := by omega
        refine ⟨(hexc hval).mpr h128, ?_⟩
        rw [and127_eq_mod, and127_eq_mod]
        omega
    · by_cases hcase : frame.isException = false ∧
          (st.currentRequest.functionCode &&& 127 = ModbusFC.READ_HOLDING_REGISTERS ∨
           st.currentRequest.functionCode &&& 127 = ModbusFC.READ_INPUT_REGISTERS)
      · rw [if_pos hcase]
        obtain ⟨hnex', hbase⟩ := hcase
        rw [and127_eq_mod] at hbase
        have hfceq : frame.functionCode = st.currentRequest.functionCode := by
          rcases hfcm with h | h
          · exact h
          · exfalso
            have h128 : 128 ≤ frame.functionCode := by omega
            rw [hnex'] at hexc
            have := (hexc hval).mpr h128
            simp at this
        have hfc34 : frame.functionCode = ModbusFC.READ_HOLDING_REGISTERS ∨
            frame.functionCode = ModbusFC.READ_INPUT_REGISTERS := by
          unfold ModbusFC.READ_HOLDING_REGISTERS ModbusFC.READ_INPUT_REGISTERS at hbase ⊢
          omega
        simp only [beq_iff_eq]
        rw [hbc ⟨hnex', hfc34⟩]
        omega
      · rw [if_neg hcase]

/-- C1: given an in-flight request (with a byte-valued supported function
code) and a well-formed received frame, handling the frame consumes the
in-flight request — releasing it and invoking its completion — if and only
if the frame is CRC-valid, classified as a non-request, from the in-flight
unit, with the in-flight function code or its exception form, and, for
FC3/FC4 non-exception responses, with byte count equal to twice the
in-flight quantity; a frame failing any of these conditions leaves the
in-flight request pending and invokes no completion. -/
theorem c1_inflight_consumption (nowMs : Nat) (st : EngineState)
    (frame : ModbusFrame) (isReq : Bool)
    (hw : st.waitingForResponse = true) (hp : st.hasPendingRequest = true)
    (hcfc : st.currentRequest.functionCode < 128)
    (hfc : frame.functionCode < 256)
    (hexc : frame.isValid = true →
      (frame.isException = true ↔ 128 ≤ frame.functionCode)) :
    (claimMatchC1 st frame ↔
      ((handleExtractedFrame nowMs st frame isReq).waitingForResponse = false ∧
       (handleExtractedFrame nowMs st frame isReq).hasPendingRequest = false)) ∧
    (claimMatchC1 st frame →
      (handleExtractedFrame nowMs st frame isReq).completionLog =
        (match st.currentRequest.callback with
         | some cb => st.completionLog ++ [(cb, !frame.isException, frame)]
         | none => st.completionLog)) ∧
    (¬claimMatchC1 st frame →
      (handleExtractedFrame nowMs st frame isReq).waitingForResponse = true ∧
      (handleExtractedFrame nowMs st frame isReq).hasPendingRequest = true ∧
      (handleExtractedFrame nowMs st frame isReq).currentRequest = st.currentRequest ∧
      (handleExtractedFrame nowMs st frame isReq).completionLog = st.completionLog) := by
  have hiff := consumesInFlight_iff_claim st frame hw hp hcfc hfc hexc
  constructor
  · constructor
    · intro hclaim
      have hcons : consumesInFlight st frame = true := hiff.mpr hclaim
      have hval : frame.isValid = true := hclaim.1
      have hcons' := handleValidFrame_consumed nowMs st frame isReq hcons
      unfold handleExtractedFrame
      simp only [hval, Bool.not_true, Bool.false_eq_true, if_false]
      exact ⟨hcons'.1, hcons'.2.1⟩
    · intro hrel
      by_contra hclaim
      have hcons : consumesInFlight st frame = false := by
        cases hc : consumesInFlight st frame
        · rfl
        · exact absurd (hiff.mp hc) hclaim
      have hnc := handleValidFrame_not_consumed nowMs st frame isReq hcons
      unfold handleExtractedFrame at hrel
      rcases hrel with ⟨hrel1, _⟩
      by_cases hval : frame.isValid = true
      · simp only [hval, Bool.not_true, Bool.false_eq_true, if_false] at hrel1
        rw [hnc.1, hw] at hrel1
        exact absurd hrel1 (by decide)
      · have hval' : frame.isValid = false := by
          cases hv : frame.isValid
          · rfl
          · exact absurd hv hval
        simp only [hval', Bool.not_false, if_true] at hrel1
        rw [hw] at hrel1
        exact absurd hrel1 (by decide)
  · constructor
    · intro hclaim
      have hcons : consumesInFlight st frame = true := hiff.mpr hclaim
      have hval : frame.isValid = true := hclaim.1
      have hcons' := handleValidFrame_consumed nowMs st frame isReq hcons
      unfold handleExtractedFrame
      simp only [hval, Bool.not_true, Bool.false_eq_true, if_false]
      exact hcons'.2.2.2
    · intro hclaim
      have hcons : consumesInFlight st frame = false := by
        cases hc : consumesInFlight st frame
        · rfl
        · exact absurd (hiff.mp hc) hclaim
      have hnc := handleValidFrame_not_consumed nowMs st frame isReq hcons
      unfold handleExtractedFrame
      by_cases hval : frame.isValid = true
      · simp only [hval, Bool.not_true, Bool.false_eq_true, if_false]
        exact ⟨by rw [hnc.1, hw], by rw [hnc.2.1, hp], hnc.2.2.1, hnc.2.2.2.1⟩
      · have hval' : frame.isValid = false := by
          cases hv : frame.isValid
          · rfl
          · exact absurd hv hval
        simp only [hval', Bool.not_false, if_true]
        exact ⟨hw, hp, by trivial, by trivial⟩

set_option maxRecDepth 4000 in
/-- Witness for C1: a concrete in-flight state for unit 5 (FC3, quantity 1)
and the matching response `c2Frame`: the claim-side conditions hold and the
response consumes the in-flight request. -/
theorem c1_inflight_consumption_witness :
    claimMatchC1
      { waitingForResponse := true, hasPendingRequest := true,
        currentRequest := { unitId := 5, functionCode := 3, quantity := 1 } } c2Frame ∧
    (handleExtractedFrame 0
      { waitingForResponse := true, hasPendingRequest := true,
        currentRequest := { unitId := 5, functionCode := 3, quantity := 1 } }
      c2Frame false).waitingForResponse = false := by
  have h := c1_inflight_consumption 0
    { waitingForResponse := true, hasPendingRequest := true,
      currentRequest := { unitId := 5, functionCode := 3, quantity := 1 } }
    c2Frame false rfl rfl (by decide) (by decide) (by decide)
  have hclaim : claimMatchC1
      { waitingForResponse := true, hasPendingRequest := true,
        currentRequest := { unitId := 5, functionCode := 3, quantity := 1 } } c2Frame := by
    unfold claimMatchC1
    refine ⟨by decide, by decide, by decide, Or.inl (by decide), fun _ => by decide⟩
  exact ⟨hclaim, (h.1.mp hclaim).1⟩

/-! ## C5: encode / parse round trip -/

theorem parseFrame_appendCRC (nowMs unixNow b0 b1 : Nat) (rest : List Nat)
    (hb : ∀ b ∈ b0 :: b1 :: rest, b < 65536) (hfc : b1 &&& 128 = 0) :
    parseFrame nowMs unixNow (appendCRC (b0 :: b1 :: rest)) =
      some { unitId := b0, functionCode := b1, data := rest,
             crc := calculateCRC (b0 :: b1 :: rest), timestamp := nowMs,
             unixTimestamp := unixNow, isRequest := false, isValid := true,
             isException := false, exceptionCode := 0 } := by
  have hc : calculateCRC (b0 :: b1 :: rest) < 65536 := calculateCRC_lt _ hb
  have hy : (calculateCRC (b0 :: b1 :: rest) >>> 8) % 256 =
      calculateCRC (b0 :: b1 :: rest) >>> 8 :=
    Nat.mod_eq_of_lt (shiftRight8_lt _ hc)
  have hbytes : appendCRC (b0 :: b1 :: rest) =
      (b0 :: b1 :: rest) ++ [calculateCRC (b0 :: b1 :: rest) &&& 255,
        calculateCRC (b0 :: b1 :: rest) >>> 8] := by
    unfold appendCRC
    simp only [hy]
  have hlen : ((b0 :: b1 :: rest) ++ [calculateCRC (b0 :: b1 :: rest) &&& 255,
      calculateCRC (b0 :: b1 :: rest) >>> 8]).length = rest.length + 4 := by
    simp [List.length_append]
  have hget2 : ((b0 :: b1 :: rest) ++ [calculateCRC (b0 :: b1 :: rest) &&& 255,
      calculateCRC (b0 :: b1 :: rest) >>> 8]).getD (rest.length + 4 - 2) 0 =
      calculateCRC (b0 :: b1 :: rest) &&& 255 := by
    rw [List.getD_eq_getElem?_getD, List.getElem?_append_right (by simp)]
    simp only [List.length_cons]
    rw [show rest.length + 4 - 2 - (rest.length + 1 + 1) = 0 by omega]
    rfl
  have hget1 : ((b0 :: b1 :: rest) ++ [calculateCRC (b0 :: b1 :: rest) &&& 255,
      calculateCRC (b0 :: b1 :: rest) >>> 8]).getD (rest.length + 4 - 1) 0 =
      calculateCRC (b0 :: b1 :: rest) >>> 8 := by
    rw [List.getD_eq_getElem?_getD, List.getElem?_append_right (by simp)]
    simp only [List.length_cons]
    rw [show rest.length + 4 - 1 - (rest.length + 1 + 1) = 1 by omega]
    rfl
  have htake : ((b0 :: b1 :: rest) ++ [calculateCRC (b0 :: b1 :: rest) &&& 255,
      calculateCRC (b0 :: b1 :: rest) >>> 8]).take (rest.length + 4 - 2) =
      b0 :: b1 :: rest := by
    apply List.take_left'
    simp only [List.length_cons]
    omega
  have hdata : (((b0 :: b1 :: rest) ++ [calculateCRC (b0 :: b1 :: rest) &&& 255,
      calculateCRC (b0 :: b1 :: rest) >>> 8]).drop 2).take (rest.length + 4 - 4) =
      rest := by
    show ((rest ++ [calculateCRC (b0 :: b1 :: rest) &&& 255,
      calculateCRC (b0 :: b1 :: rest) >>> 8]).take (rest.length + 4 - 4)) = rest
    apply List.take_left'
    omega
  unfold parseFrame
  rw [hbytes, hlen, if_neg (by omega), hget2, hget1, htake,
    lo_or_hiShift (calculateCRC (b0 :: b1 :: rest)), if_neg (by omega)]
  rw [show ((b0 :: b1 :: rest) ++ [calculateCRC (b0 :: b1 :: rest) &&& 255,
      calculateCRC (b0 :: b1 :: rest) >>> 8]).getD 1 0 = b1 from rfl]
  rw [if_neg (by omega), hdata]
  rfl

theorem flatMap_pair_length (l : List Nat) (f g : Nat → Nat) :
    (l.flatMap fun v => [f v, g v]).length = 2 * l.length := by
  induction l with
  | nil => rfl
  | cons a t ih =>
    simp only [List.flatMap_cons, List.length_append, ih, List.length_cons]
    simp
    omega

theorem and255_lt' (x : Nat) : x &&& 255 < 65536 :=
  Nat.lt_trans (and255_lt x) (by norm_num)

theorem mod256_lt (x : Nat) : x % 256 < 65536 :=
  Nat.lt_trans (Nat.mod_lt x (by norm_num)) (by norm_num)

theorem startRegister_roundtrip (s : Nat) (hs : s < 65536) (tail : List Nat) :
    (ModbusFrame.getStartRegister
      { data := (s >>> 8) % 256 :: (s &&& 255) :: tail }) = s := by
  unfold ModbusFrame.getStartRegister
  rw [if_pos (by simp)]
  simp only [List.getD_cons_zero, List.getD_cons_succ]
  rw [hi_or_lo_eq s]
  omega

theorem quantity_roundtrip (q a b : Nat) (hq : q < 65536) (tail : List Nat) :
    (ModbusFrame.getQuantity
      { data := a :: b :: (q >>> 8) % 256 :: (q &&& 255) :: tail }) = q := by
  unfold ModbusFrame.getQuantity
  rw [if_pos (by simp)]
  simp only [List.getD_cons_zero, List.getD_cons_succ]
  rw [hi_or_lo_eq q]
  omega

/-- C5: for every supported pending request (read FC1-FC4, write-single
FC6 with one data word, write-multiple FC16 with quantity equal to the word
count), parsing the encoded request frame — unit, function code, the fields
of that function code, and the CRC-16/Modbus appended low byte first —
succeeds with `isValid` and recovers the request: same unit and function
code, the same start register, the same quantity (FC6 carries the written
value in its place), and the exact payload bytes that were encoded. -/
theorem c5_encode_parse_roundtrip (r : ModbusPendingRequest) (nowMs unixNow : Nat)
    (hu : r.unitId < 256) (hs : r.startRegister < 65536) (hq : r.quantity < 65536)
    (hsupp :
      (r.functionCode = ModbusFC.READ_COILS ∨
       r.functionCode = ModbusFC.READ_DISCRETE_INPUTS ∨
       r.functionCode = ModbusFC.READ_HOLDING_REGISTERS ∨
       r.functionCode = ModbusFC.READ_INPUT_REGISTERS) ∨
      (r.functionCode = ModbusFC.WRITE_SINGLE_REGISTER ∧ r.writeData ≠ []) ∨
      r.functionCode = ModbusFC.WRITE_MULTIPLE_REGISTERS) :
    ∃ body f, encodeRequestBody r = some body ∧
      parseFrame nowMs unixNow (appendCRC body) = some f ∧
      f.isValid = true ∧ f.isException = false ∧
      f.unitId = r.unitId ∧ f.functionCode = r.functionCode ∧
      f.data = body.drop 2 ∧
      f.getStartRegister = r.startRegister ∧
      (r.functionCode ≠ ModbusFC.WRITE_SINGLE_REGISTER →
        f.getQuantity = r.quantity) := by
  have hmodeq : r.unitId % 256 = r.unitId := Nat.mod_eq_of_lt hu
  rcases hsupp with hread | ⟨h6, hw6⟩ | h16
  · -- read requests: FC 1, 2, 3 or 4
    have hfceq : r.functionCode % 256 = r.functionCode := by
      rcases hread with h | h | h | h <;> rw [h] <;> rfl
    have hbody : encodeRequestBody r =
        some (r.unitId % 256 :: r.functionCode % 256 ::
          (r.startRegister >>> 8) % 256 :: (r.startRegister &&& 255) ::
          (r.quantity >>> 8) % 256 :: (r.quantity &&& 255) :: []) := by
      unfold encodeRequestBody
      rw [if_pos hread]
    have hparse := parseFrame_appendCRC nowMs unixNow (r.unitId % 256)
      (r.functionCode % 256)
      ((r.startRegister >>> 8) % 256 :: (r.startRegister &&& 255) ::
        (r.quantity >>> 8) % 256 :: (r.quantity &&& 255) :: [])
      (by
        intro b hbmem
        simp only [List.mem_cons, List.not_mem_nil, or_false] at hbmem
        rcases hbmem with rfl | rfl | rfl | rfl | rfl | rfl <;>
          first
          | exact mod256_lt _
          | exact and255_lt' _)
      (by
        rw [hfceq]
        rcases hread with h | h | h | h <;> rw [h] <;> decide)
    refine ⟨_, _, hbody, hparse, rfl, rfl, hmodeq, hfceq, rfl, ?_, ?_⟩
    · exact startRegister_roundtrip r.startRegister hs _
    · intro _
      exact quantity_roundtrip r.quantity _ _ hq _
  · -- write single register (FC6) with a data word
    have hfceq : r.functionCode % 256 = r.functionCode := by
      rw [h6]; rfl
    have hbody : encodeRequestBody r =
        some (r.unitId % 256 :: r.functionCode % 256 ::
          (r.startRegister >>> 8) % 256 :: (r.startRegister &&& 255) ::
          (r.writeData.getD 0 0 >>> 8) % 256 :: (r.writeData.getD 0 0 &&& 255) :: []) := by
      unfold encodeRequestBody
      rw [if_neg (by simp [h6, ModbusFC.READ_COILS, ModbusFC.READ_DISCRETE_INPUTS,
            ModbusFC.READ_HOLDING_REGISTERS, ModbusFC.READ_INPUT_REGISTERS,
            ModbusFC.WRITE_SINGLE_REGISTER]),
          if_pos h6, if_pos hw6]
      rfl
    have hparse := parseFrame_appendCRC nowMs unixNow (r.unitId % 256)
      (r.functionCode % 256)
      ((r.startRegister >>> 8) % 256 :: (r.startRegister &&& 255) ::
        (r.writeData.getD 0 0 >>> 8) % 256 :: (r.writeData.getD 0 0 &&& 255) :: [])
      (by
        intro b hbmem
        simp only [List.mem_cons, List.not_mem_nil, or_false] at hbmem
        rcases hbmem with rfl | rfl | rfl | rfl | rfl | rfl <;>
          first
          | exact mod256_lt _
          | exact and255_lt' _)
      (by rw [hfceq, h6]; rfl)
    refine ⟨_, _, hbody, hparse, rfl, rfl, hmodeq, hfceq, rfl, ?_, ?_⟩
    · exact startRegister_roundtrip r.startRegister hs _
    · intro hne
      exact absurd h6 hne
  · -- write multiple registers (FC16)
    have hfceq : r.functionCode % 256 = r.functionCode := by
      rw [h16]; rfl
    have hbody : encodeRequestBody r =
        some (r.unitId % 256 :: r.functionCode % 256 ::
          (r.startRegister >>> 8) % 256 :: (r.startRegister &&& 255) ::
          (r.quantity >>> 8) % 256 :: (r.quantity &&& 255) ::
          (r.quantity * 2) % 256 ::
          (r.writeData.flatMap fun v => [(v >>> 8) % 256, v &&& 255])) := by
      unfold encodeRequestBody
      rw [if_neg (by simp [h16, ModbusFC.READ_COILS, ModbusFC.READ_DISCRETE_INPUTS,
            ModbusFC.READ_HOLDING_REGISTERS, ModbusFC.READ_INPUT_REGISTERS,
            ModbusFC.WRITE_MULTIPLE_REGISTERS]),
          if_neg (by simp [h16, ModbusFC.WRITE_SINGLE_REGISTER,
            ModbusFC.WRITE_MULTIPLE_REGISTERS]),
          if_pos h16]
      rfl
    have hparse := parseFrame_appendCRC nowMs unixNow (r.unitId % 256)
      (r.functionCode % 256)
      ((r.startRegister >>> 8) % 256 :: (r.startRegister &&& 255) ::
        (r.quantity >>> 8) % 256 :: (r.quantity &&& 255) ::
        (r.quantity * 2) % 256 ::
        (r.writeData.flatMap fun v => [(v >>> 8) % 256, v &&& 255]))
      (by
        intro b hbmem
        simp only [List.mem_cons] at hbmem
        rcases hbmem with rfl | rfl | rfl | rfl | rfl | rfl | rfl | hmem
        · exact mod256_lt _
        · exact mod256_lt _
        · exact mod256_lt _
        · exact and255_lt' _
        · exact mod256_lt _
        · exact and255_lt' _
        · exact mod256_lt _
        · simp only [List.mem_flatMap, List.mem_cons, List.not_mem_nil, or_false] at hmem
          obtain ⟨v, _, hv⟩ := hmem
          rcases hv with rfl | rfl
          · exact mod256_lt _
          · exact and255_lt' _)
      (by rw [hfceq, h16]; rfl)
    refine ⟨_, _, hbody, hparse, rfl, rfl, hmodeq, hfceq, rfl, ?_, ?_⟩
    · exact startRegister_roundtrip r.startRegister hs _
    · intro _
      exact quantity_roundtrip r.quantity _ _ hq _

/-- Witness for C5: the round trip at the concrete FC3 request
unit 1, start 0x1234, quantity 2. -/
theorem c5_encode_parse_roundtrip_witness :
    ∃ body f,
      encodeRequestBody
        { unitId := 1, functionCode := 3, startRegister := 0x1234, quantity := 2 } =
        some body ∧
      parseFrame 0 0 (appendCRC body) = some f ∧
      f.isValid = true ∧ f.isException = false ∧
      f.unitId = 1 ∧ f.functionCode = 3 ∧
      f.data = body.drop 2 ∧
      f.getStartRegister = 0x1234 ∧
      ((3 : Nat) ≠ ModbusFC.WRITE_SINGLE_REGISTER → f.getQuantity = 2) :=
  c5_encode_parse_roundtrip
    { unitId := 1, functionCode := 3, startRegister := 0x1234, quantity := 2 }
    0 0 (by decide) (by decide) (by decide)
    (Or.inl (Or.inr (Or.inr (Or.inl rfl))))

/-- `handleValidFrame` never touches the CRC-error counter or the frame
observer log: CRC-valid frames are counted elsewhere and the observer is
notified by the caller. -/
theorem handleValidFrame_crc_log (nowMs : Nat) (st : EngineState)
    (frame : ModbusFrame) (isReq : Bool) :
    (handleValidFrame nowMs st frame isReq).stats.crcErrors = st.stats.crcErrors ∧
    (handleValidFrame nowMs st frame isReq).frameLog = st.frameLog := by
  unfold handleValidFrame
  by_cases h : consumesInFlight st frame = true
  · simp only [consumesInFlight_set_stats, h, if_true]
    split <;> split <;> simp_all
  · have h' : consumesInFlight st frame = false := by simpa using h
    simp only [consumesInFlight_set_stats, h', Bool.false_eq_true, if_false]
    repeat' split
    all_goals simp

/-- `handleExtractedFrame` appends the frame to the observer log and bumps
`crcErrors` exactly when the frame failed its CRC check. -/
theorem handleExtractedFrame_crc_log (nowMs : Nat) (st : EngineState)
    (frame : ModbusFrame) (isReq : Bool) :
    (handleExtractedFrame nowMs st frame isReq).frameLog =
      st.frameLog ++ [(frame, isReq)] ∧
    (handleExtractedFrame nowMs st frame isReq).stats.crcErrors =
      st.stats.crcErrors + (if frame.isValid then 0 else 1) := by
  unfold handleExtractedFrame
  by_cases hv : frame.isValid
  · have h1 := (handleValidFrame_crc_log nowMs st frame isReq).1
    have h2 := (handleValidFrame_crc_log nowMs st frame isReq).2
    simp [hv, h1, h2]
  · simp only [Bool.not_eq_true] at hv
    simp [hv]

/-- Accounting invariant of the extraction loop: relative to the starting
state, the loop appends some list of frames to the observer log and raises
`crcErrors` by exactly the number of appended frames whose CRC check
failed. -/
theorem processLoopGo_crc_frames (nowMs unixNow rxStartMs charTimeUs : Nat)
    (buf : List Nat) :
    ∀ fuel st i extracted sawNoise,
      ∃ tail : List (ModbusFrame × Bool),
        (processLoopGo nowMs unixNow rxStartMs charTimeUs buf fuel
            st i extracted sawNoise).1.frameLog = st.frameLog ++ tail ∧
        (processLoopGo nowMs unixNow rxStartMs charTimeUs buf fuel
            st i extracted sawNoise).1.stats.crcErrors =
          st.stats.crcErrors + tail.countP (fun fb => !fb.1.isValid) := by
  intro fuel
  induction fuel with
  | zero =>
    intro st i e n
    exact ⟨[], by simp [processLoopGo], by simp [processLoopGo]⟩
  | succ m ih =>
    intro st i e n
    simp only [processLoopGo]
    by_cases hc : i + 4 ≤ buf.length
    · simp only [if_pos hc]
      by_cases hn : (buf.drop i).getD 0 0 = 0 ∨ 247 < (buf.drop i).getD 0 0
      · simp only [if_pos hn]
        exact ih st (i + 1) e true
      · simp only [if_neg hn]
        cases htry : tryExtractAt nowMs unixNow st (buf.drop i) with
        | none =>
          simp only [htry]
          exact ih st (i + 1) e true
        | some r =>
          obtain ⟨frame, isReq, len⟩ := r
          simp only [htry]
          obtain ⟨tail, hlog, hcrc⟩ := ih (handleExtractedFrame nowMs st { frame with timestamp := (rxStartMs + i * charTimeUs / 1000) % 4294967296, unixTimestamp := unixNow, isRequest := isReq } isReq) (i + len.1) (e + 1) n
          refine ⟨({ frame with timestamp := (rxStartMs + i * charTimeUs / 1000) % 4294967296, unixTimestamp := unixNow, isRequest := isReq }, isReq) :: tail, ?_, ?_⟩
          · rw [hlog, (handleExtractedFrame_crc_log nowMs st _ isReq).1]
            simp
          · rw [hcrc, (handleExtractedFrame_crc_log nowMs st _ isReq).2,
              List.countP_cons]
            cases hv : frame.isValid
            · simp [hv]
              omega
            · simp [hv]
    · simp only [if_neg hc]
      exact ⟨[], by simp, by simp⟩

set_option maxRecDepth 4000 in
/-- C8 counterexample: the nine-byte RX buffer holding a noise byte (unit
id 0) followed by a complete, CRC-valid FC3 read request sets the noise
flag during scanning, extracts one frame that consumes the rest of the
buffer, and ends with `crcErrors` still at 0 — the claimed unconditional
bump on any noise hit does not happen. -/
theorem c8_counterexample :
    (processLoopGo 0 0 0 0 (0 :: appendCRC [1, 3, 0, 0, 0, 1]) 9
        ({} : EngineState) 0 0 false).2.2.1 = true ∧
    (processLoopGo 0 0 0 0 (0 :: appendCRC [1, 3, 0, 0, 0, 1]) 9
        ({} : EngineState) 0 0 false).2.2.2 = 9 ∧
    (processReceivedData 0 0 0 0 ({} : EngineState)
        (0 :: appendCRC [1, 3, 0, 0, 0, 1])).stats.crcErrors = 0 := by
  refine ⟨by decide, by decide, by decide⟩

/-- C8 (amended): over one extractor invocation the CRC-error statistic
rises by the number of extracted frames whose CRC check failed, plus
exactly one extra bump exactly when bytes are left over at the end of the
scan or noise was seen while no frame at all was extracted; noise hits in
an invocation that still extracts a frame and consumes the whole buffer do
not bump the statistic. -/
theorem c8_crc_error_accounting (nowMs unixNow rxStartMs charTimeUs : Nat)
    (st : EngineState) (buf : List Nat) (h4 : 4 ≤ buf.length) :
    ∃ tail : List (ModbusFrame × Bool),
      (processLoopGo nowMs unixNow rxStartMs charTimeUs buf buf.length
          st 0 0 false).1.frameLog = st.frameLog ++ tail ∧
      (processReceivedData nowMs unixNow rxStartMs charTimeUs st buf).frameLog =
        st.frameLog ++ tail ∧
      (processReceivedData nowMs unixNow rxStartMs charTimeUs st buf).stats.crcErrors =
        st.stats.crcErrors + tail.countP (fun fb => !fb.1.isValid) +
        (if (processLoopGo nowMs unixNow rxStartMs charTimeUs buf buf.length
              st 0 0 false).2.2.2 < buf.length ∨
            ((processLoopGo nowMs unixNow rxStartMs charTimeUs buf buf.length
              st 0 0 false).2.2.1 = true ∧
             (processLoopGo nowMs unixNow rxStartMs charTimeUs buf buf.length
              st 0 0 false).2.1 = 0) then 1 else 0) := by
  obtain ⟨tail, hlog, hcrc⟩ := processLoopGo_crc_frames nowMs unixNow rxStartMs
    charTimeUs buf buf.length st 0 0 false
  refine ⟨tail, hlog, ?_, ?_⟩
  · simp only [processReceivedData]
    rw [if_neg (by omega)]
    split <;> exact hlog
  · simp only [processReceivedData]
    rw [if_neg (by omega)]
    by_cases hbump :
        (processLoopGo nowMs unixNow rxStartMs charTimeUs buf buf.length
          st 0 0 false).2.2.2 < buf.length ∨
        ((processLoopGo nowMs unixNow rxStartMs charTimeUs buf buf.length
          st 0 0 false).2.2.1 = true ∧
         (processLoopGo nowMs unixNow rxStartMs charTimeUs buf buf.length
          st 0 0 false).2.1 = 0)
    · simp only [if_pos hbump, hcrc]
    · simp only [if_neg hbump, hcrc, Nat.add_zero]

/-- Witness for C8 at the concrete buffer `appendCRC [1, 3, 0, 0, 0, 1]`
(a complete CRC-valid FC3 request) starting from the fresh engine state. -/
theorem c8_crc_error_accounting_witness :
    ∃ tail : List (ModbusFrame × Bool),
      (processLoopGo 0 0 0 0 (appendCRC [1, 3, 0, 0, 0, 1])
          (appendCRC [1, 3, 0, 0, 0, 1]).length
          ({} : EngineState) 0 0 false).1.frameLog =
        ({} : EngineState).frameLog ++ tail ∧
      (processReceivedData 0 0 0 0 ({} : EngineState)
          (appendCRC [1, 3, 0, 0, 0, 1])).frameLog =
        ({} : EngineState).frameLog ++ tail ∧
      (processReceivedData 0 0 0 0 ({} : EngineState)
          (appendCRC [1, 3, 0, 0, 0, 1])).stats.crcErrors =
        ({} : EngineState).stats.crcErrors +
          tail.countP (fun fb => !fb.1.isValid) +
        (if (processLoopGo 0 0 0 0 (appendCRC [1, 3, 0, 0, 0, 1])
              (appendCRC [1, 3, 0, 0, 0, 1]).length
              ({} : EngineState) 0 0 false).2.2.2 <
              (appendCRC [1, 3, 0, 0, 0, 1]).length ∨
            ((processLoopGo 0 0 0 0 (appendCRC [1, 3, 0, 0, 0, 1])
              (appendCRC [1, 3, 0, 0, 0, 1]).length
              ({} : EngineState) 0 0 false).2.2.1 = true ∧
             (processLoopGo 0 0 0 0 (appendCRC [1, 3, 0, 0, 0, 1])
              (appendCRC [1, 3, 0, 0, 0, 1]).length
              ({} : EngineState) 0 0 false).2.1 = 0) then 1 else 0) :=
  c8_crc_error_accounting 0 0 0 0 ({} : EngineState)
    (appendCRC [1, 3, 0, 0, 0, 1]) (by decide)

theorem lookup_asSet_ne (m : List (String × ModbusRegisterValue)) (k k' : String)
    (v : ModbusRegisterValue) (h : k' ≠ k) :
    (asSet m k v).lookup k' = m.lookup k' := by
  have hb : (k' == k) = false := by simp only [beq_eq_false_iff_ne, ne_eq]; exact h
  induction m with
  | nil => simp [asSet, List.lookup_cons, hb]
  | cons hd t ih =>
    obtain ⟨k₀, v₀⟩ := hd
    by_cases h₀ : k₀ = k
    · subst h₀
      simp [asSet, List.lookup_cons, hb]
    · simp only [asSet, if_neg h₀, List.lookup_cons, ih]

/-- The register walk of `applyReadResponseToDevice` emits one notification
per covered register definition, unconditionally; the emitted value depends
only on the response words, never on the accumulated device state. -/
theorem applyRead_fold_notifs (f32 : Nat → ℚ) (nowMs nowUnix uid functionCode pollIntervalMs startAddress wordCount : Nat) (words : List Nat) :
    ∀ (regs : List ModbusRegisterDef) (dev : ModbusDeviceInstance)
      (notifs : List ValueNotification),
      (regs.foldl
        (fun (acc : ModbusDeviceInstance × List ValueNotification) reg =>
          let (dev, notifs) := acc
          if reg.pollIntervalMs ≠ pollIntervalMs then acc
          else if reg.functionCode ≠ functionCode then acc
          else if reg.dataType = ModbusDataType.STRING then acc
          else if reg.address < startAddress then acc
          else
            let offset := reg.address - startAddress
            if wordCount < offset + reg.length then acc
            else
              let value := convertRawToValue f32 reg (words.drop offset)
              let cached := ((dev.currentValues.lookup reg.name).getD {})
              let cached := { cached with updatedAtMs := nowMs, unixTimestamp := nowUnix, timestamp := if nowUnix ≠ 0 then nowUnix else nowMs / 1000, value := value, valid := true }
              ({ dev with currentValues := asSet dev.currentValues reg.name cached },
               notifs ++ [⟨uid, reg.name, value, reg.unit⟩]))
        (dev, notifs)).2 =
      notifs ++ regs.filterMap (fun reg =>
        if reg.pollIntervalMs ≠ pollIntervalMs then none
        else if reg.functionCode ≠ functionCode then none
        else if reg.dataType = ModbusDataType.STRING then none
        else if reg.address < startAddress then none
        else if wordCount < reg.address - startAddress + reg.length then none
        else some ⟨uid, reg.name, convertRawToValue f32 reg (words.drop (reg.address - startAddress)), reg.unit⟩) := by
  intro regs
  induction regs with
  | nil =>
    intro dev notifs
    simp
  | cons r t ih =>
    intro dev notifs
    simp only [List.foldl_cons, List.filterMap_cons]
    by_cases h1 : r.pollIntervalMs ≠ pollIntervalMs
    · simp only [if_pos h1]
      exact ih dev notifs
    · simp only [if_neg h1]
      by_cases h2 : r.functionCode ≠ functionCode
      · simp only [if_pos h2]
        exact ih dev notifs
      · simp only [if_neg h2]
        by_cases h3 : r.dataType = ModbusDataType.STRING
        · simp only [if_pos h3]
          exact ih dev notifs
        · simp only [if_neg h3]
          by_cases h4 : r.address < startAddress
          · simp only [if_pos h4]
            exact ih dev notifs
          · simp only [if_neg h4]
            by_cases h5 : wordCount < r.address - startAddress + r.length
            · simp only [if_pos h5]
              exact ih dev notifs
            · simp only [if_neg h5]
              rw [ih]
              simp

/-- The register walk of `tryUpdateFromPassiveResponse` emits one
notification per covered register definition exactly when the cached value
was invalid or moved by more than the threshold; under pairwise-distinct
register names the gate reads the pre-walk cache `cv0`. -/
theorem tryUpdate_fold_notifs (f32 : Nat → ℚ) (nowMs nowUnix uid fc startReg respRegCount : Nat)
    (regData : List Nat) (cv0 : List (String × ModbusRegisterValue)) :
    ∀ (regs : List ModbusRegisterDef) (dev : ModbusDeviceInstance)
      (notifs : List ValueNotification) (m : Bool),
      (regs.map fun r => r.name).Nodup →
      (∀ r ∈ regs, dev.currentValues.lookup r.name = cv0.lookup r.name) →
      (regs.foldl
        (fun (acc : ModbusDeviceInstance × List ValueNotification × Bool) reg =>
          let (dev, notifs, _matchedAny) := acc
          if reg.functionCode ≠ fc then acc
          else if reg.dataType = ModbusDataType.STRING then acc
          else if reg.address < startReg then acc
          else
            let offset := reg.address - startReg
            if respRegCount < offset + reg.length then acc
            else
              let rawData := (List.range reg.length).map fun i => ((regData.getD ((offset + i) * 2) 0 <<< 8) ||| regData.getD ((offset + i) * 2 + 1) 0) % 65536
              let value := convertRawToValue f32 reg rawData
              let cached := ((dev.currentValues.lookup reg.name).getD {})
              let shouldNotify := !cached.valid || valuesDiffer cached.value value
              let cached := { cached with updatedAtMs := nowMs, unixTimestamp := nowUnix, timestamp := if nowUnix ≠ 0 then nowUnix else nowMs / 1000, value := value, valid := true }
              let dev := { dev with currentValues := asSet dev.currentValues reg.name cached }
              if shouldNotify then
                (dev, notifs ++ [⟨uid, reg.name, value, reg.unit⟩], true)
              else (dev, notifs, true))
        (dev, notifs, m)).2.1 =
      notifs ++ regs.filterMap (fun reg =>
        if reg.functionCode ≠ fc then none
        else if reg.dataType = ModbusDataType.STRING then none
        else if reg.address < startReg then none
        else if respRegCount < reg.address - startReg + reg.length then none
        else
          let value := convertRawToValue f32 reg ((List.range reg.length).map fun i => ((regData.getD ((reg.address - startReg + i) * 2) 0 <<< 8) ||| regData.getD ((reg.address - startReg + i) * 2 + 1) 0) % 65536)
          if !((cv0.lookup reg.name).getD {}).valid || valuesDiffer ((cv0.lookup reg.name).getD {}).value value then some ⟨uid, reg.name, value, reg.unit⟩
          else none) := by
  intro regs
  induction regs with
  | nil =>
    intro dev notifs m _ _
    simp
  | cons r t ih =>
    intro dev notifs m hnd hagree
    have hr : dev.currentValues.lookup r.name = cv0.lookup r.name :=
      hagree r (List.mem_cons_self r t)
    have hndt : (t.map fun r => r.name).Nodup := (List.nodup_cons.mp hnd).2
    have hnotin : r.name ∉ t.map fun r => r.name := (List.nodup_cons.mp hnd).1
    have hagree' : ∀ (c : ModbusRegisterValue), ∀ r' ∈ t,
        (asSet dev.currentValues r.name c).lookup r'.name = cv0.lookup r'.name := by
      intro c r' hr'
      have hne : r'.name ≠ r.name := by
        intro he
        exact hnotin (List.mem_map.mpr ⟨r', hr', he⟩)
      rw [lookup_asSet_ne _ _ _ _ hne]
      exact hagree r' (List.mem_cons_of_mem _ hr')
    have hagreet : ∀ r' ∈ t, dev.currentValues.lookup r'.name = cv0.lookup r'.name :=
      fun r' hr' => hagree r' (List.mem_cons_of_mem _ hr')
    simp only [List.foldl_cons, List.filterMap_cons]
    by_cases h1 : r.functionCode ≠ fc
    · simp only [if_pos h1]
      exact ih dev notifs m hndt hagreet
    · simp only [if_neg h1]
      by_cases h2 : r.dataType = ModbusDataType.STRING
      · simp only [if_pos h2]
        exact ih dev notifs m hndt hagreet
      · simp only [if_neg h2]
        by_cases h3 : r.address < startReg
        · simp only [if_pos h3]
          exact ih dev notifs m hndt hagreet
        · simp only [if_neg h3]
          by_cases h4 : respRegCount < r.address - startReg + r.length
          · simp only [if_pos h4]
            exact ih dev notifs m hndt hagreet
          · simp only [if_neg h4]
            simp only [hr]
            by_cases h5 : (!((cv0.lookup r.name).getD ({} : ModbusRegisterValue)).valid || valuesDiffer ((cv0.lookup r.name).getD ({} : ModbusRegisterValue)).value (convertRawToValue f32 r ((List.range r.length).map fun i => ((regData.getD ((r.address - startReg + i) * 2) 0 <<< 8) ||| regData.getD ((r.address - startReg + i) * 2 + 1) 0) % 65536))) = true
            · simp only [if_pos h5]
              rw [ih]
              · simp
              · exact hndt
              · intro r' hr'
                exact hagree' _ r' hr'
            · simp only [if_neg h5]
              rw [ih]
              · exact hndt
              · intro r' hr'
                exact hagree' _ r' hr'

def c3Dev : ModbusDeviceInstance where
  unitId := 1
  registers := [{ name := "v", address := 0, length := 1, functionCode := 3, pollIntervalMs := 1000 }]
  currentValues := [("v", { name := "v", value := 7, valid := true })]

def c3Resp : ModbusFrame := (parseFrame 0 0 (appendCRC [1, 3, 2, 0, 7])).getD {}

def c3Req : ModbusFrame := (parseFrame 0 0 (appendCRC [1, 3, 0, 0, 0, 1])).getD {}

set_option maxRecDepth 4000 in
/-- C3 counterexample: decoding the register word 7 for a register whose
cached value is 7 and valid (so the value neither differs by more than
`1e-4` nor was invalid) still fires `onValueChange` once on the own-poll
path (`applyReadResponseToDevice` notifies unconditionally), while the
passive path under the same reading fires nothing. -/
theorem c3_counterexample :
    valuesDiffer (7 : ℚ) 7 = false ∧
    ((c3Dev.currentValues.lookup "v").getD {}).valid = true ∧
    ((c3Dev.currentValues.lookup "v").getD {}).value = 7 ∧
    (applyReadResponseToDevice (fun _ => 0) 0 0 c3Dev 3 1000 0 c3Resp).2 =
      [⟨1, "v", 7, ""⟩] ∧
    (tryUpdateFromPassiveResponse (fun _ => 0) 0 0 c3Dev c3Req c3Resp).2 = [] := by
  have hresp : c3Resp = { unitId := 1, functionCode := 3, data := [2, 0, 7], crc := 34553, timestamp := 0, unixTimestamp := 0, isRequest := false, isValid := true, isException := false, exceptionCode := 0 } := by decide
  have hreqq : c3Req = { unitId := 1, functionCode := 3, data := [0, 0, 0, 1], crc := 2692, timestamp := 0, unixTimestamp := 0, isRequest := false, isValid := true, isException := false, exceptionCode := 0 } := by decide
  have hvd : valuesDiffer (7 : ℚ) 7 = false := by
    simp only [valuesDiffer, decide_eq_false_iff_not]
    rw [if_neg (by norm_num)]
    norm_num
  refine ⟨hvd, by decide, rfl, ?_, ?_⟩
  · rw [hresp]
    simp [applyReadResponseToDevice, c3Dev, convertRawToValue, ModbusFrame.getRegisterData, ModbusFrame.getByteCount, asSet]
  · rw [hresp, hreqq]
    simp [tryUpdateFromPassiveResponse, tryUpdateWalk, c3Dev, convertRawToValue, ModbusFrame.getRegisterData, ModbusFrame.getByteCount, ModbusFrame.getStartRegister, asSet, hvd, ModbusFC.READ_HOLDING_REGISTERS, ModbusFC.READ_INPUT_REGISTERS, (show (3 : Nat) &&& 127 = 3 by decide)]

/-- C3 (amended): for every successfully decoded register reading of a
paired passive response, `onValueChange` fires exactly once if and only if
the cached value was invalid or the absolute difference to the new value
exceeds `1e-4`; a reading decoded from an own poll completion fires
`onValueChange` exactly once unconditionally.  Both walks emit exactly one
notification per covered register definition, in definition order. -/
theorem c3_value_change_gate (f32 : Nat → ℚ) (nowMs nowUnix : Nat)
    (device : ModbusDeviceInstance) (functionCode pollIntervalMs startAddress : Nat)
    (request response : ModbusFrame) (regData : List Nat)
    (hnd : (device.registers.map fun r => r.name).Nodup)
    (hvalid : response.isValid = true) (hexc : response.isException = false)
    (hdata : response.getRegisterData = some regData)
    (hbc : 2 ≤ response.getByteCount)
    (hreq : request.isValid = true)
    (hfc : response.functionCode &&& 127 = ModbusFC.READ_HOLDING_REGISTERS ∨
           response.functionCode &&& 127 = ModbusFC.READ_INPUT_REGISTERS)
    (hreqfc : request.functionCode &&& 127 = response.functionCode &&& 127) :
    (applyReadResponseToDevice f32 nowMs nowUnix device functionCode pollIntervalMs startAddress response).2 =
      device.registers.filterMap (fun reg =>
        if reg.pollIntervalMs ≠ pollIntervalMs then none
        else if reg.functionCode ≠ functionCode then none
        else if reg.dataType = ModbusDataType.STRING then none
        else if reg.address < startAddress then none
        else if response.getByteCount / 2 < reg.address - startAddress + reg.length then none
        else some ⟨device.unitId, reg.name, convertRawToValue f32 reg (((List.range (response.getByteCount / 2)).map fun i => ((regData.getD (i * 2) 0 <<< 8) ||| regData.getD (i * 2 + 1) 0) % 65536).drop (reg.address - startAddress)), reg.unit⟩) ∧
    (tryUpdateFromPassiveResponse f32 nowMs nowUnix device request response).2 =
      device.registers.filterMap (fun reg =>
        if reg.functionCode ≠ response.functionCode &&& 127 then none
        else if reg.dataType = ModbusDataType.STRING then none
        else if reg.address < request.getStartRegister then none
        else if response.getByteCount / 2 < reg.address - request.getStartRegister + reg.length then none
        else
          let value := convertRawToValue f32 reg ((List.range reg.length).map fun i => ((regData.getD ((reg.address - request.getStartRegister + i) * 2) 0 <<< 8) ||| regData.getD ((reg.address - request.getStartRegister + i) * 2 + 1) 0) % 65536)
          if !((device.currentValues.lookup reg.name).getD {}).valid || valuesDiffer ((device.currentValues.lookup reg.name).getD {}).value value then some ⟨device.unitId, reg.name, value, reg.unit⟩
          else none) := by
  constructor
  · simp only [applyReadResponseToDevice]
    rw [if_neg (by simp [hvalid, hexc])]
    simp only [hdata]
    rw [if_neg (by omega)]
    rw [applyRead_fold_notifs]
    simp
  · simp only [tryUpdateFromPassiveResponse]
    rw [if_neg (by simp [hreq, hvalid])]
    rw [if_neg (by simp [hexc])]
    rw [if_neg (by rcases hfc with h | h <;> simp [h])]
    rw [if_neg (by simp [hreqfc])]
    simp only [hdata]
    rw [if_neg (by omega), if_neg (by omega)]
    rcases hstep : tryUpdateWalk f32 nowMs nowUnix device.unitId
      (response.functionCode &&& 127) request.getStartRegister
      (response.getByteCount / 2) regData device.registers device with ⟨d, n, m⟩
    have hmain := tryUpdate_fold_notifs f32 nowMs nowUnix device.unitId
      (response.functionCode &&& 127) request.getStartRegister
      (response.getByteCount / 2) regData device.currentValues
      device.registers device [] false hnd (fun r _ => rfl)
    unfold tryUpdateWalk at hstep
    rw [hstep] at hmain
    cases m <;> simpa using hmain

set_option maxRecDepth 4000 in
/-- Witness for C3 at the concrete device, request and response of the
counterexample setup. -/
theorem c3_value_change_gate_witness :
    (applyReadResponseToDevice (fun _ => 0) 0 0 c3Dev 3 1000 0 c3Resp).2 =
      c3Dev.registers.filterMap (fun reg =>
        if reg.pollIntervalMs ≠ 1000 then none
        else if reg.functionCode ≠ 3 then none
        else if reg.dataType = ModbusDataType.STRING then none
        else if reg.address < 0 then none
        else if c3Resp.getByteCount / 2 < reg.address - 0 + reg.length then none
        else some ⟨c3Dev.unitId, reg.name, convertRawToValue (fun _ => 0) reg (((List.range (c3Resp.getByteCount / 2)).map fun i => (([0, 7].getD (i * 2) 0 <<< 8) ||| [0, 7].getD (i * 2 + 1) 0) % 65536).drop (reg.address - 0)), reg.unit⟩) ∧
    (tryUpdateFromPassiveResponse (fun _ => 0) 0 0 c3Dev c3Req c3Resp).2 =
      c3Dev.registers.filterMap (fun reg =>
        if reg.functionCode ≠ c3Resp.functionCode &&& 127 then none
        else if reg.dataType = ModbusDataType.STRING then none
        else if reg.address < c3Req.getStartRegister then none
        else if c3Resp.getByteCount / 2 < reg.address - c3Req.getStartRegister + reg.length then none
        else
          let value := convertRawToValue (fun _ => 0) reg ((List.range reg.length).map fun i => (([0, 7].getD ((reg.address - c3Req.getStartRegister + i) * 2) 0 <<< 8) ||| [0, 7].getD ((reg.address - c3Req.getStartRegister + i) * 2 + 1) 0) % 65536)
          if !((c3Dev.currentValues.lookup reg.name).getD {}).valid || valuesDiffer ((c3Dev.currentValues.lookup reg.name).getD {}).value value then some ⟨c3Dev.unitId, reg.name, value, reg.unit⟩
          else none) :=
  c3_value_change_gate (fun _ => 0) 0 0 c3Dev 3 1000 0 c3Req c3Resp [0, 7]
    (by decide) (by decide) (by decide) (by decide) (by decide) (by decide)
    (Or.inl (by decide)) (by decide)

theorem segLt_iff (a b : Seg) : segLt a b = true ↔
    (a.fc < b.fc ∨ (a.fc = b.fc ∧ (a.interval < b.interval ∨
      (a.interval = b.interval ∧ a.start < b.start)))) := by
  unfold segLt
  by_cases hfc : a.fc = b.fc
  · by_cases hint : a.interval = b.interval
    · rw [if_neg (by omega), if_neg (by omega)]
      simp only [decide_eq_true_eq]
      omega
    · rw [if_neg (by omega), if_pos hint]
      simp only [decide_eq_true_eq]
      omega
  · rw [if_pos hfc]
    simp only [decide_eq_true_eq]
    omega

theorem segLt_false_iff (a b : Seg) : segLt a b = false ↔
    ¬(a.fc < b.fc ∨ (a.fc = b.fc ∧ (a.interval < b.interval ∨
      (a.interval = b.interval ∧ a.start < b.start)))) := by
  rw [← segLt_iff]
  rw [Bool.not_eq_true]

theorem segLE_eq_false (s t : Seg) (h : segLE s t = true) : segLt t s = false := by
  cases hlt : segLt t s
  · rfl
  · rw [show segLE s t = !segLt t s from rfl, hlt] at h
    exact absurd h (by decide)

theorem segLE_trans : ∀ (a b c : Seg),
    segLE a b = true → segLE b c = true → segLE a c = true := by
  intro a b c h1 h2
  have h1' := segLE_eq_false a b h1
  have h2' := segLE_eq_false b c h2
  rw [segLt_false_iff] at h1' h2'
  show (!segLt c a) = true
  cases hlt : segLt c a
  · rfl
  · rw [segLt_iff] at hlt
    exact absurd hlt (by omega)

theorem segLE_total : ∀ (a b : Seg), (segLE a b || segLE b a) = true := by
  intro a b
  show (!segLt b a || !segLt a b) = true
  cases h1 : segLt b a <;> cases h2 : segLt a b <;> try rfl
  rw [segLt_iff] at h1 h2
  exact absurd h1 (by omega)

theorem segLE_both (a b : Seg) (h1 : segLE a b = true) (h2 : segLE b a = true) :
    a.fc = b.fc ∧ a.interval = b.interval ∧ a.start = b.start := by
  have h1' := segLE_eq_false a b h1
  have h2' := segLE_eq_false b a h2
  rw [segLt_false_iff] at h1' h2'
  omega

theorem segLE_start_le (s t : Seg) (h : segLE s t = true) (hfc : t.fc = s.fc)
    (hint : t.interval = s.interval) : s.start ≤ t.start := by
  have h' := segLE_eq_false s t h
  rw [segLt_false_iff] at h'
  omega

/-- Two sorted lists of segments that are permutations of each other and
have pairwise-distinct `(fc, interval, start)` keys are equal: `std::sort`
is deterministic on such inputs regardless of the pre-sort order. -/
theorem sorted_perm_eq_of_distinct :
    ∀ (l₁ l₂ : List Seg), l₁.Perm l₂ →
      l₁.Pairwise (fun a b => segLE a b = true) →
      l₂.Pairwise (fun a b => segLE a b = true) →
      l₁.Pairwise (fun a b => a.fc ≠ b.fc ∨ a.interval ≠ b.interval ∨ a.start ≠ b.start) →
      l₁ = l₂ := by
  intro l₁
  induction l₁ with
  | nil =>
    intro l₂ hp _ _ _
    exact (List.Perm.eq_nil hp.symm).symm
  | cons a t ih =>
    intro l₂ hp hs1 hs2 hk
    cases l₂ with
    | nil => exact absurd (List.Perm.eq_nil hp) (by simp)
    | cons b t₂ =>
      have hbmem : b ∈ a :: t := hp.mem_iff.mpr (List.mem_cons_self b t₂)
      have heqab : a = b := by
        rcases List.mem_cons.mp hbmem with h | h
        · exact h.symm
        · have h1 : segLE a b = true := (List.pairwise_cons.mp hs1).1 b h
          have hamem : a ∈ b :: t₂ := hp.mem_iff.mp (List.mem_cons_self a t)
          rcases List.mem_cons.mp hamem with h' | h'
          · exact h'
          · have h2 : segLE b a = true := (List.pairwise_cons.mp hs2).1 a h'
            have hk1 := (List.pairwise_cons.mp hk).1 b h
            have hall := segLE_both a b h1 h2
            tauto
      subst heqab
      have hp' := hp.cons_inv
      have ht := ih t₂ hp' (List.pairwise_cons.mp hs1).2 (List.pairwise_cons.mp hs2).2
        (List.pairwise_cons.mp hk).2
      rw [ht]

/-- A poll batch is well formed for the coverage predicate `C`: quantity in
`[1, 125]` and every register address it reads satisfies `C` at the batch's
`(functionCode, pollIntervalMs)`. -/
def batchGood (C : Nat → Nat → Nat → Prop) (b : ModbusPollBatch) : Prop :=
  1 ≤ b.quantity ∧ b.quantity ≤ 125 ∧
  ∀ a, b.startAddress ≤ a → a < b.startAddress + b.quantity →
    C b.functionCode b.pollIntervalMs a

/-- A segment is well formed for `C`: a non-wrapping window of at most 125
registers, every address of which satisfies `C` at the segment's group. -/
def segGood (C : Nat → Nat → Nat → Prop) (s : Seg) : Prop :=
  s.start ≤ s.stop ∧ s.stop ≤ 65535 ∧ s.stop + 1 - s.start ≤ 125 ∧
  ∀ a, s.start ≤ a → a ≤ s.stop → C s.fc s.interval a

/-- Some polled register definition of `regs` with group `(fc, interval)`
covers address `a`. -/
def defCovers (regs : List ModbusRegisterDef) (fc interval a : Nat) : Prop :=
  ∃ d ∈ regs, d.pollIntervalMs ≠ 0 ∧ d.functionCode = fc ∧
    d.pollIntervalMs = interval ∧ d.address ≤ a ∧ a < d.address + d.length

theorem flushWindow_good (C : Nat → Nat → Nat → Prop) (fc interval ws we : Nat)
    (acc : List ModbusPollBatch) (hwl : ws ≤ we) (hwlen : we + 1 - ws ≤ 125)
    (hcov : ∀ a, ws ≤ a → a ≤ we → C fc interval a)
    (hacc : ∀ b ∈ acc, batchGood C b) :
    ∀ b ∈ flushWindow fc interval ws we acc, batchGood C b := by
  intro b hb
  have hq : (we + 1 + 65536 - ws) % 65536 = we + 1 - ws := by
    rw [show we + 1 + 65536 - ws = 65536 + (we + 1 - ws) from by omega, Nat.add_mod_left]
    exact Nat.mod_eq_of_lt (by omega)
  simp only [flushWindow, hq] at hb
  rw [if_neg (by omega)] at hb
  rcases List.mem_append.mp hb with h | h
  · exact hacc b h
  · rw [List.mem_singleton] at h
    subst h
    simp only [batchGood]
    refine ⟨by omega, by omega, fun a ha1 ha2 => hcov a ha1 (by omega)⟩

/-- Invariant of the merge loop: starting from a well-formed window and
well-formed sorted segments, every batch the loop can ever emit is well
formed — quantity in `[1, 125]`, grouped by a single `(fc, interval)`, and
every read address covered. -/
theorem mergeGo_good (C : Nat → Nat → Nat → Prop) :
    ∀ (rest : List Seg) (curFc curInterval ws we : Nat) (acc : List ModbusPollBatch),
      (∀ s ∈ rest, segGood C s) →
      rest.Pairwise (fun a b => segLE a b = true) →
      (∀ s ∈ rest, s.fc = curFc → s.interval = curInterval → ws ≤ s.start) →
      ws ≤ we → we ≤ 65535 → we + 1 - ws ≤ 125 →
      (∀ a, ws ≤ a → a ≤ we → C curFc curInterval a) →
      (∀ b ∈ acc, batchGood C b) →
      ∀ b ∈ mergeGo rest curFc curInterval ws we acc, batchGood C b := by
  intro rest
  induction rest with
  | nil =>
    intro curFc curInterval ws we acc _ _ _ hwl hwu hwlen hcov hacc b hb
    rw [mergeGo] at hb
    exact flushWindow_good C curFc curInterval ws we acc hwl hwlen hcov hacc b hb
  | cons s rest ih =>
    intro curFc curInterval ws we acc hseg hsort hws hwl hwu hwlen hcov hacc b hb
    have hsegs : segGood C s := hseg s (List.mem_cons_self s rest)
    have hsegt : ∀ t ∈ rest, segGood C t := fun t ht => hseg t (List.mem_cons_of_mem _ ht)
    have hsortt : rest.Pairwise (fun a b => segLE a b = true) := (List.pairwise_cons.mp hsort).2
    have hhead : ∀ t ∈ rest, segLE s t = true := (List.pairwise_cons.mp hsort).1
    have hafter : ∀ t ∈ rest, t.fc = s.fc → t.interval = s.interval → s.start ≤ t.start :=
      fun t ht hfc hint => segLE_start_le s t (hhead t ht) hfc hint
    simp only [mergeGo] at hb
    by_cases hgrp : s.fc ≠ curFc ∨ s.interval ≠ curInterval
    · rw [if_pos hgrp] at hb
      exact ih s.fc s.interval s.start s.stop _ hsegt hsortt hafter
        hsegs.1 hsegs.2.1 hsegs.2.2.1 hsegs.2.2.2
        (flushWindow_good C curFc curInterval ws we acc hwl hwlen hcov hacc) b hb
    · rw [if_neg hgrp] at hb
      push_neg at hgrp
      obtain ⟨hfc, hint⟩ := hgrp
      have hws' : ws ≤ s.start := hws s (List.mem_cons_self s rest) hfc hint
      by_cases hm : s.start ≤ (we + 1) % 65536 ∧
          ((if we < s.stop then s.stop else we) + 1 + 65536 - ws) % 65536 ≤ 125
      · rw [if_pos hm] at hb
        obtain ⟨hm1, hm2⟩ := hm
        have hwe65535 : we < 65535 := by
          by_contra hcon
          have hwe : we = 65535 := by omega
          subst hwe
          rw [show (65535 + 1) % 65536 = 0 from by norm_num] at hm1
          omega
        rw [Nat.mod_eq_of_lt (by omega : we + 1 < 65536)] at hm1
        have hstople := hsegs.2.2.1
        have hstopub := hsegs.2.1
        have hlenub : (if we < s.stop then s.stop else we) + 1 - ws < 65536 := by
          split
          · omega
          · omega
        rw [show (if we < s.stop then s.stop else we) + 1 + 65536 - ws =
              65536 + ((if we < s.stop then s.stop else we) + 1 - ws) from by
                split <;> omega,
            Nat.add_mod_left, Nat.mod_eq_of_lt hlenub] at hm2
        refine ih curFc curInterval ws (if we < s.stop then s.stop else we) acc
          hsegt hsortt
          (fun t ht hfc' hint' => hws t (List.mem_cons_of_mem _ ht) hfc' hint')
          (by split <;> omega) (by split <;> omega) (by omega) ?_ hacc b hb
        intro a ha1 ha2
        by_cases haw : a ≤ we
        · exact hcov a ha1 haw
        · have hwlt : we < s.stop := by
            by_contra hc
            rw [if_neg hc] at ha2
            omega
          rw [if_pos hwlt] at ha2
          have hC := hsegs.2.2.2 a (by omega) ha2
          rw [hfc, hint] at hC
          exact hC
      · rw [if_neg hm] at hb
        refine ih curFc curInterval s.start s.stop _ hsegt hsortt
          (fun t ht hfc' hint' => hafter t ht (hfc'.trans hfc.symm) (hint'.trans hint.symm))
          hsegs.1 hsegs.2.1 hsegs.2.2.1 ?_
          (flushWindow_good C curFc curInterval ws we acc hwl hwlen hcov hacc) b hb
        intro a ha1 ha2
        have hC := hsegs.2.2.2 a ha1 ha2
        rw [hfc, hint] at hC
        exact hC

/-- Every segment built by the first loop of `rebuildPollBatches` from
bounded polled definitions is well formed, with coverage by the originating
definition. -/
theorem polledSegs_good (regs : List ModbusRegisterDef)
    (hbound : ∀ d ∈ regs, d.pollIntervalMs ≠ 0 →
      1 ≤ d.length ∧ d.length ≤ 125 ∧ d.address + d.length ≤ 65536) :
    ∀ s ∈ polledSegs regs, segGood (defCovers regs) s := by
  intro s hs
  simp only [polledSegs, List.mem_filterMap] at hs
  obtain ⟨d, hd, hds⟩ := hs
  by_cases hp : d.pollIntervalMs = 0
  · simp [hp] at hds
  · rw [if_neg hp, Option.some.injEq] at hds
    subst hds
    obtain ⟨h1, h2, h3⟩ := hbound d hd hp
    have hstart : d.address % 65536 = d.address := Nat.mod_eq_of_lt (by omega)
    have hstop : (d.address + d.length + 65535) % 65536 = d.address + d.length - 1 := by
      rw [show d.address + d.length + 65535 = 65536 + (d.address + d.length - 1) from by omega,
        Nat.add_mod_left]
      exact Nat.mod_eq_of_lt (by omega)
    simp only [segGood, hstart, hstop]
    refine ⟨by omega, by omega, by omega, ?_⟩
    intro a ha1 ha2
    exact ⟨d, hd, hp, rfl, rfl, by omega, by omega⟩

def c6Big : ModbusRegisterDef := { name := "r", address := 0, length := 200, functionCode := 3, pollIntervalMs := 1000 }

def c6D0 : ModbusRegisterDef := { name := "d0", address := 0, length := 51, functionCode := 3, pollIntervalMs := 1000 }

def c6A : ModbusRegisterDef := { name := "a", address := 51, length := 50, functionCode := 3, pollIntervalMs := 1000 }

def c6B : ModbusRegisterDef := { name := "b", address := 51, length := 80, functionCode := 3, pollIntervalMs := 1000 }

/-- C6 counterexample: a single polled definition of length 200 produces a
batch of quantity 200 > 125 (the builder only bounds windows while merging,
never a lone segment), and two definitions sharing the sort key
`(fc, interval, address)` but differing in length make the plan depend on
the input order: `[c6D0, c6A, c6B]` yields a first batch of quantity 101
while `[c6D0, c6B, c6A]` yields a first batch of quantity 51. -/
theorem c6_counterexample :
    (∃ b ∈ rebuildPollBatches [c6Big], 125 < b.quantity) ∧
    rebuildPollBatches [c6D0, c6A, c6B] ≠ rebuildPollBatches [c6D0, c6B, c6A] := by
  constructor
  · have h1 : (polledSegs [c6Big]).mergeSort segLE = [⟨0, 199, 3, 1000⟩] := by
      rw [show polledSegs [c6Big] = [⟨0, 199, 3, 1000⟩] from rfl, List.mergeSort_singleton]
    refine ⟨⟨3, 0, 200, 1000, 0, 0⟩, ?_, by decide⟩
    simp only [rebuildPollBatches, h1]
    decide
  · have h2 : (polledSegs [c6D0, c6A, c6B]).mergeSort segLE = polledSegs [c6D0, c6A, c6B] :=
      List.mergeSort_of_sorted (by decide)
    have h3 : (polledSegs [c6D0, c6B, c6A]).mergeSort segLE = polledSegs [c6D0, c6B, c6A] :=
      List.mergeSort_of_sorted (by decide)
    simp only [rebuildPollBatches, h2, h3]
    decide

/-- C6 (amended): when every polled register definition has length between
1 and 125 and fits below address 65536, every batch of the produced plan
has quantity between 1 and 125 and reads only addresses covered by some
polled definition with exactly the batch's `(functionCode, pollIntervalMs)`
— batches never cross gaps or mix groups; and the plan is invariant under
reordering of the definitions provided the polled definitions have
pairwise-distinct `(fc, interval, address)` sort keys (definitions sharing
a key can make the plan order-dependent). -/
theorem c6_poll_plan (regs regs' : List ModbusRegisterDef)
    (hbound : ∀ d ∈ regs, d.pollIntervalMs ≠ 0 →
      1 ≤ d.length ∧ d.length ≤ 125 ∧ d.address + d.length ≤ 65536)
    (hperm : regs.Perm regs')
    (hkeys : (polledSegs regs).Pairwise
      (fun a b => a.fc ≠ b.fc ∨ a.interval ≠ b.interval ∨ a.start ≠ b.start)) :
    (∀ b ∈ rebuildPollBatches regs, 1 ≤ b.quantity ∧ b.quantity ≤ 125 ∧
       ∀ a, b.startAddress ≤ a → a < b.startAddress + b.quantity →
         defCovers regs b.functionCode b.pollIntervalMs a) ∧
    rebuildPollBatches regs' = rebuildPollBatches regs := by
  constructor
  · intro b hb
    have hgood : ∀ s ∈ (polledSegs regs).mergeSort segLE, segGood (defCovers regs) s :=
      fun s hs => polledSegs_good regs hbound s ((List.mergeSort_perm _ _).mem_iff.mp hs)
    have hsorted : ((polledSegs regs).mergeSort segLE).Pairwise (fun a b => segLE a b = true) :=
      List.sorted_mergeSort segLE_trans segLE_total _
    revert hb
    simp only [rebuildPollBatches]
    cases hms : (polledSegs regs).mergeSort segLE with
    | nil =>
      intro hb
      exact absurd hb (List.not_mem_nil b)
    | cons s rest =>
      intro hb
      rw [hms] at hgood hsorted
      have hs := hgood s (List.mem_cons_self s rest)
      exact mergeGo_good (defCovers regs) rest s.fc s.interval s.start s.stop []
        (fun t ht => hgood t (List.mem_cons_of_mem _ ht))
        (List.pairwise_cons.mp hsorted).2
        (fun t ht hfc hint =>
          segLE_start_le s t ((List.pairwise_cons.mp hsorted).1 t ht) hfc hint)
        hs.1 hs.2.1 hs.2.2.1 hs.2.2.2 (by simp) b hb
  · have hperm2 : (polledSegs regs).Perm (polledSegs regs') := hperm.filterMap _
    have hs1 : ((polledSegs regs).mergeSort segLE).Pairwise (fun a b => segLE a b = true) :=
      List.sorted_mergeSort segLE_trans segLE_total _
    have hs2 : ((polledSegs regs').mergeSort segLE).Pairwise (fun a b => segLE a b = true) :=
      List.sorted_mergeSort segLE_trans segLE_total _
    have hmsperm : ((polledSegs regs').mergeSort segLE).Perm ((polledSegs regs).mergeSort segLE) :=
      ((List.mergeSort_perm _ _).trans hperm2.symm).trans (List.mergeSort_perm _ _).symm
    have hsymm : ∀ {x y : Seg},
        (x.fc ≠ y.fc ∨ x.interval ≠ y.interval ∨ x.start ≠ y.start) →
        (y.fc ≠ x.fc ∨ y.interval ≠ x.interval ∨ y.start ≠ x.start) := by
      intro x y h
      tauto
    have hkeys1 : ((polledSegs regs).mergeSort segLE).Pairwise
        (fun a b => a.fc ≠ b.fc ∨ a.interval ≠ b.interval ∨ a.start ≠ b.start) :=
      (List.Perm.pairwise_iff hsymm (List.mergeSort_perm _ _)).mpr hkeys
    have hkeys2 : ((polledSegs regs').mergeSort segLE).Pairwise
        (fun a b => a.fc ≠ b.fc ∨ a.interval ≠ b.interval ∨ a.start ≠ b.start) :=
      (List.Perm.pairwise_iff hsymm hmsperm).mpr hkeys1
    have heq : (polledSegs regs').mergeSort segLE = (polledSegs regs).mergeSort segLE :=
      sorted_perm_eq_of_distinct _ _ hmsperm hs2 hs1 hkeys2
    simp only [rebuildPollBatches, heq]

def c6R1 : ModbusRegisterDef := { name := "x", address := 0, length := 2, functionCode := 3, pollIntervalMs := 1000 }

def c6R2 : ModbusRegisterDef := { name := "y", address := 10, length := 3, functionCode := 3, pollIntervalMs := 1000 }

/-- Witness for C6 at two bounded, distinct-keyed definitions and the swap
reordering. -/
theorem c6_poll_plan_witness :
    (∀ b ∈ rebuildPollBatches [c6R1, c6R2], 1 ≤ b.quantity ∧ b.quantity ≤ 125 ∧
       ∀ a, b.startAddress ≤ a → a < b.startAddress + b.quantity →
         defCovers [c6R1, c6R2] b.functionCode b.pollIntervalMs a) ∧
    rebuildPollBatches [c6R2, c6R1] = rebuildPollBatches [c6R1, c6R2] :=
  c6_poll_plan [c6R1, c6R2] [c6R2, c6R1] (by decide)
    (List.Perm.swap c6R2 c6R1 []) (by decide)

end Joba
